import Mathlib

/-!
Snake-Collector: a shallow embedding of `GameObjects.h`

The C++ `int` is embedded as `Int`. All arithmetic of the program stays far
from the limits of a 32-bit `int` for the states considered here, so no
wrap-around is modelled (signed overflow is undefined behaviour in C++).

Undefined behaviour of the source (`front()`/`back()` of an empty vector,
`%` by zero) is modelled by the result `none`.

`rand()` is embedded as a stream `rnd : Nat → Nat`: the `k`-th call of the
process returns `rnd k`, and the number of calls made so far is threaded
through the functions that draw random numbers.
-/

namespace GameObjects

/-! ## Data model -/

/-- One part of a snake: `struct Part { int x; int dir; }`. -/
structure Part where
  x : Int
  dir : Int
  deriving DecidableEq, Repr

/-- The class `Snake`: origin `x`, row `y`, and the ordered parts. -/
structure Snake where
  x : Int
  y : Int
  parts : List Part
  deriving DecidableEq, Repr

/-- The class `Obstacle`: origin `(x, y)` and horizontal span `width`. -/
structure Obstacle where
  x : Int
  y : Int
  width : Int
  deriving DecidableEq, Repr

/-- The class `Plane`: dimensions and the two ordered collections. -/
structure Plane where
  width : Int
  height : Int
  snakes : List Snake
  obstacles : List Obstacle
  deriving DecidableEq, Repr

/-- The enum `Player::MovementStatus`. -/
inductive MovementStatus where
  | HitObstacle
  | HitSnake
  | HitSnakeHead
  | Succeed
  deriving DecidableEq, Repr

/-- The class `Player` without its reference to the plane: the plane is
passed to `Player.move` and returned by it. -/
structure Player where
  x : Int
  y : Int
  deriving DecidableEq, Repr

/-! ## Snake -/

/-- The constructor `Snake::Snake(x, y, length, dir)`: the loop
`for (i = 0; i < length; ++i) parts.push_back(Part{dir > 0 ? x + i : x + length - i, dir})`. -/
def Snake.new (x y length dir : Int) : Snake :=
  { x := x
    y := y
    parts := (List.range length.toNat).map fun (i : Nat) =>
      { x := if dir > 0 then x + (i : Int) else x + length - (i : Int), dir := dir } }

/-- The body of the loop of `Snake::update` for one part:
`part.x += part.dir; if (part.x >= width or part.x < 0) { part.dir *= -1; part.x += part.dir; }`. -/
def Part.update (p : Part) (width : Int) : Part :=
  let p1 : Part := { p with x := p.x + p.dir }
  if p1.x ≥ width ∨ p1.x < 0 then
    let p2 : Part := { p1 with dir := p1.dir * (-1) }
    { p2 with x := p2.x + p2.dir }
  else
    p1

/-- The method `Snake::update(width)`: every part is updated in order. -/
def Snake.update (s : Snake) (width : Int) : Snake :=
  { s with parts := s.parts.map fun p => p.update width }

/-- The constructor `Plane::Plane(width, height)`: both collections are empty. -/
def Plane.new (width height : Int) : Plane :=
  { width := width, height := height, snakes := [], obstacles := [] }

/-- The constant `DEFAULT_GAME_WIDTH`. -/
def DEFAULT_GAME_WIDTH : Int := 31

/-- The constant `DEFAULT_GAME_HEIGHT`. -/
def DEFAULT_GAME_HEIGHT : Int := 20

/-- The method `Plane::updateSnakes()`. -/
def Plane.updateSnakes (p : Plane) : Plane :=
  { p with snakes := p.snakes.map fun s => s.update p.width }

/-! ## Random numbers and level generation -/

/-- The macro `RANDOM_GEN(a, b) = (rand() % (b - a)) + a` applied to the value
`r` returned by `rand()`. C++ `%` truncates towards zero (`Int.tmod`);
`%` by zero is undefined behaviour (`none`). -/
def RANDOM_GEN (r : Nat) (a b : Int) : Option Int :=
  if b - a = 0 then none else some (Int.tmod (r : Int) (b - a) + a)

/-- The obstacle loop of `Plane::generate` for the row `y`, entered at the loop
test with the current `x`, after `k` calls of `rand()`:
`for (x = ...; x < width; x += RANDOM_GEN(2, 4)) { length = RANDOM_GEN(2, 7);
if (x + length >= width) length = width - x; obstacles.emplace_back(x, y, length); x += length; }`.
Returns the number of `rand()` calls made and the obstacle collection.
The first argument bounds the number of iterations; `none` when it is exhausted. -/
def obstacleLoop (rnd : Nat → Nat) (width y : Int) :
    Nat → Nat → Int → List Obstacle → Option (Nat × List Obstacle)
  | 0, _, _, _ => none
  | fuel + 1, k, x, obstacles =>
    if x < width then
      match RANDOM_GEN (rnd k) 2 7 with
      | none => none
      | some length0 =>
        let length := if x + length0 ≥ width then width - x else length0
        let obstacles1 := obstacles ++ [{ x := x, y := y, width := length }]
        let x1 := x + length
        match RANDOM_GEN (rnd (k + 1)) 2 4 with
        | none => none
        | some gap => obstacleLoop rnd width y fuel (k + 2) (x1 + gap) obstacles1
    else
      some (k, obstacles)

/-- The body of the row loop of `Plane::generate` for the row `y`: one snake on
row `y + 1`, then the obstacles of row `y`. -/
def generateRow (rnd : Nat → Nat) (p : Plane) (k : Nat) (y : Int) : Option (Nat × Plane) :=
  match RANDOM_GEN (rnd k) 3 7 with
  | none => none
  | some length =>
    match RANDOM_GEN (rnd (k + 1)) 0 2 with
    | none => none
    | some d =>
      let dir : Int := if d ≠ 0 then 1 else -1
      match RANDOM_GEN (rnd (k + 2)) (length + 1) (p.width - length) with
      | none => none
      | some sx =>
        let snakes1 := p.snakes ++ [Snake.new sx (y + 1) length dir]
        match RANDOM_GEN (rnd (k + 3)) 1 3 with
        | none => none
        | some x0 =>
          match obstacleLoop rnd p.width y (p.width.toNat + 1) (k + 4) x0 p.obstacles with
          | none => none
          | some (k1, obstacles1) =>
            some (k1, { p with snakes := snakes1, obstacles := obstacles1 })

/-- The row loop of `Plane::generate`, entered at the loop test with the
current `y`: `for (y = beginOffset; y < height - endOffset - 1; y += 2) { ... }`.
The first argument bounds the number of iterations; `none` when it is exhausted. -/
def generateLoop (rnd : Nat → Nat) (endOffset : Int) :
    Nat → Plane → Nat → Int → Option (Nat × Plane)
  | 0, _, _, _ => none
  | fuel + 1, p, k, y =>
    if y < p.height - endOffset - 1 then
      match generateRow rnd p k y with
      | none => none
      | some (k1, p1) => generateLoop rnd endOffset fuel p1 k1 (y + 2)
    else
      some (k, p)

/-- The method `Plane::generate(beginOffset, endOffset)`, started after `k`
calls of `rand()`. The iteration bound of the row loop is the number of
integers in `[beginOffset, height - endOffset - 1)` plus one. -/
def Plane.generate (rnd : Nat → Nat) (p : Plane) (k : Nat) (beginOffset endOffset : Int) :
    Option (Nat × Plane) :=
  generateLoop rnd endOffset ((p.height - endOffset - 1 - beginOffset).toNat + 1) p k beginOffset

/-! ## Player -/

/-- What the snake loop of `Player::move` finds. -/
inductive SnakeScan where
  | head
  | body (i : Nat)
  | miss
  deriving DecidableEq, Repr

/-- The snake loop of `Player::move` from index `i` on, over the snakes not yet
tested: `if (snake.y == yT) { begin = front().x; end = back().x;
if (end == xT) return HitSnakeHead; if (min(begin, end) <= xT and xT <= max(begin, end)) ... }`.
`none` when `front()`/`back()` is taken of an empty `parts`. -/
def scanSnakes (xT yT : Int) : List Snake → Nat → Option SnakeScan
  | [], _ => some SnakeScan.miss
  | snake :: rest, i =>
    if snake.y = yT then
      match snake.parts.head?, snake.parts.getLast? with
      | some front, some back =>
        let b := front.x
        let e := back.x
        if e = xT then some SnakeScan.head
        else if min b e ≤ xT ∧ xT ≤ max b e then some (SnakeScan.body i)
        else scanSnakes xT yT rest (i + 1)
      | _, _ => none
    else
      scanSnakes xT yT rest (i + 1)

/-- The method `Player::move(xO, yO)` on the plane the player refers to.
Returns the status, the player and the plane after the call. -/
def Player.move (pl : Player) (plane : Plane) (xO yO : Int) :
    Option (MovementStatus × Player × Plane) :=
  let xT := pl.x + xO
  let yT := pl.y + yO
  if xT < 0 ∨ xT ≥ plane.width ∨ yT < 0 ∨ yT ≥ plane.height then
    some (MovementStatus.HitObstacle, pl, plane)
  else if plane.obstacles.any fun obstacle =>
      decide (obstacle.y = yT ∧ obstacle.x ≤ xT ∧ xT < obstacle.x + obstacle.width) then
    some (MovementStatus.HitObstacle, pl, plane)
  else
    match scanSnakes xT yT plane.snakes 0 with
    | none => none
    | some SnakeScan.head => some (MovementStatus.HitSnakeHead, pl, plane)
    | some (SnakeScan.body i) =>
      some (MovementStatus.HitSnake, { x := xT, y := yT },
        { plane with snakes := plane.snakes.eraseIdx i })
    | some SnakeScan.miss => some (MovementStatus.Succeed, { x := xT, y := yT }, plane)


/-! ## Drivers for repeated calls and specification predicates -/

/-- The status and state after `n + 1` successive calls `move(xO, yO)`. -/
def Player.moveTimes (xO yO : Int) : Nat → Player → Plane →
    Option (MovementStatus × Player × Plane)
  | 0, pl, plane => pl.move plane xO yO
  | n + 1, pl, plane =>
    match pl.move plane xO yO with
    | none => none
    | some (_, pl1, plane1) => Player.moveTimes xO yO n pl1 plane1

/-- The snake after `n` successive calls `update(width)`. -/
def Snake.updateTimes (s : Snake) (width : Int) : Nat → Snake
  | 0 => s
  | n + 1 => (s.updateTimes width n).update width

/-- Specification predicate: the obstacle covers the cell `(xT, yT)`. -/
def Obstacle.covers (o : Obstacle) (xT yT : Int) : Prop :=
  o.y = yT ∧ o.x ≤ xT ∧ xT < o.x + o.width

instance (o : Obstacle) (xT yT : Int) : Decidable (o.covers xT yT) := by
  unfold Obstacle.covers; infer_instance

/-- Specification predicate: the snake lies on row `yT` and `xT` is inside its
span `[min(front.x, back.x), max(front.x, back.x)]`. -/
def Snake.covers (s : Snake) (xT yT : Int) : Prop :=
  s.y = yT ∧
    match s.parts.head?, s.parts.getLast? with
    | some f, some b => min f.x b.x ≤ xT ∧ xT ≤ max f.x b.x
    | _, _ => False

instance (s : Snake) (xT yT : Int) : Decidable (s.covers xT yT) := by
  unfold Snake.covers; split <;> infer_instance

/-- Specification predicate: the head (last part) of the snake is at `xT`. -/
def Snake.headAt (s : Snake) (xT : Int) : Prop :=
  match s.parts.getLast? with
  | some b => b.x = xT
  | none => False

instance (s : Snake) (xT : Int) : Decidable (s.headAt xT) := by
  unfold Snake.headAt; split <;> infer_instance

/-- The rows visited by the row loop of `Plane::generate`, from the loop header
`for (y = ...; y < height - endOffset - 1; y += 2)` entered at the test with `y`. -/
def rowsLoop (height endOffset : Int) : Nat → Int → List Int
  | 0, _ => []
  | fuel + 1, y =>
    if y < height - endOffset - 1 then y :: rowsLoop height endOffset fuel (y + 2) else []

/-- The rows visited by `generate(beginOffset, endOffset)` on a plane of the given height. -/
def rowsVisited (height beginOffset endOffset : Int) : List Int :=
  rowsLoop height endOffset ((height - endOffset - 1 - beginOffset).toNat + 1) beginOffset

/-- The plane after `n` successive calls `updateSnakes()`. -/
def Plane.updateSnakesTimes (p : Plane) : Nat → Plane
  | 0 => p
  | n + 1 => (p.updateSnakesTimes n).updateSnakes

/-- Specification predicate, the Plane invariant of the data model: every
obstacle row and snake row is in `[0, height)`, every obstacle span
`[x, x + width)` is within `[0, width)`, every part `x` is in `[0, width)`. -/
def Plane.invariant (p : Plane) : Prop :=
  (∀ o ∈ p.obstacles, (0 ≤ o.y ∧ o.y < p.height) ∧ 0 ≤ o.x ∧ o.x + o.width ≤ p.width) ∧
  (∀ s ∈ p.snakes, (0 ≤ s.y ∧ s.y < p.height) ∧
    ∀ part ∈ s.parts, 0 ≤ part.x ∧ part.x < p.width)

instance (p : Plane) : Decidable p.invariant := by
  unfold Plane.invariant; infer_instance

/-- Specification record: what one iteration of the row loop of
`Plane::generate` draws and creates for the row `y`. -/
structure RowGen where
  y : Int
  length : Int
  dir : Int
  sx : Int
  obstacles : List Obstacle

/-- The snake created by the iteration: `Snake(sx, y + 1, length, dir)`. -/
def RowGen.snake (r : RowGen) : Snake :=
  Snake.new r.sx (r.y + 1) r.length r.dir

/-- Specification predicate for the obstacles of one row in creation order:
the first starts in `[lo, hi)`, each next one starts 2 or 3 cells after the
end of the previous one, each has width at least 1 and ends inside the grid,
and each has width in `[2, 7)` or else ends at the grid edge and is the last. -/
def rowSpaced (width : Int) : Int → Int → List Obstacle → Prop
  | _, _, [] => True
  | lo, hi, o :: rest =>
    (lo ≤ o.x ∧ o.x < hi) ∧ 1 ≤ o.width ∧ o.x + o.width ≤ width ∧
    ((2 ≤ o.width ∧ o.width < 7) ∨ (o.x + o.width = width ∧ rest = [])) ∧
    rowSpaced width (o.x + o.width + 2) (o.x + o.width + 4) rest

/-- Specification predicate: the draws of a row are in range for a plane of the
given width, and its obstacles are on the row and spaced. -/
def RowGen.inRange (width : Int) (r : RowGen) : Prop :=
  (3 ≤ r.length ∧ r.length < 7) ∧ (r.dir = 1 ∨ r.dir = -1) ∧
  (r.length + 1 ≤ r.sx ∧ r.sx < width - r.length) ∧
  r.obstacles ≠ [] ∧ (∀ o ∈ r.obstacles, o.y = r.y) ∧ rowSpaced width 1 3 r.obstacles

/-- One evaluation of `RANDOM_GEN(a, b)`: it consumes the `k`-th value of `rand()`. -/
structure GenCall where
  k : Nat
  a : Int
  b : Int
  deriving DecidableEq, Repr

/-- The evaluations of `RANDOM_GEN` made by the obstacle loop (`obstacleLoop`
with the same arguments), in order. -/
def obstacleLoopCalls (rnd : Nat → Nat) (width : Int) : Nat → Nat → Int → List GenCall
  | 0, _, _ => []
  | fuel + 1, k, x =>
    if x < width then
      { k := k, a := 2, b := 7 } ::
        match RANDOM_GEN (rnd k) 2 7 with
        | none => []
        | some length0 =>
          let length := if x + length0 ≥ width then width - x else length0
          let x1 := x + length
          { k := k + 1, a := 2, b := 4 } ::
            match RANDOM_GEN (rnd (k + 1)) 2 4 with
            | none => []
            | some gap => obstacleLoopCalls rnd width fuel (k + 2) (x1 + gap)
    else
      []

/-- The evaluations of `RANDOM_GEN` made by one iteration of the row loop
(`generateRow` with the same arguments), in order. -/
def generateRowCalls (rnd : Nat → Nat) (p : Plane) (k : Nat) : List GenCall :=
  { k := k, a := 3, b := 7 } ::
    match RANDOM_GEN (rnd k) 3 7 with
    | none => []
    | some length =>
      { k := k + 1, a := 0, b := 2 } ::
        match RANDOM_GEN (rnd (k + 1)) 0 2 with
        | none => []
        | some _ =>
          { k := k + 2, a := length + 1, b := p.width - length } ::
            match RANDOM_GEN (rnd (k + 2)) (length + 1) (p.width - length) with
            | none => []
            | some _ =>
              { k := k + 3, a := 1, b := 3 } ::
                match RANDOM_GEN (rnd (k + 3)) 1 3 with
                | none => []
                | some x0 => obstacleLoopCalls rnd p.width (p.width.toNat + 1) (k + 4) x0

/-- The evaluations of `RANDOM_GEN` made by the row loop (`generateLoop` with
the same arguments), in order. -/
def generateLoopCalls (rnd : Nat → Nat) (endOffset : Int) :
    Nat → Plane → Nat → Int → List GenCall
  | 0, _, _, _ => []
  | fuel + 1, p, k, y =>
    if y < p.height - endOffset - 1 then
      generateRowCalls rnd p k ++
        match generateRow rnd p k y with
        | none => []
        | some (k1, p1) => generateLoopCalls rnd endOffset fuel p1 k1 (y + 2)
    else
      []

/-- The evaluations of `RANDOM_GEN` made by `generate(beginOffset, endOffset)`. -/
def Plane.generateCalls (rnd : Nat → Nat) (p : Plane) (k : Nat)
    (beginOffset endOffset : Int) : List GenCall :=
  generateLoopCalls rnd endOffset ((p.height - endOffset - 1 - beginOffset).toNat + 1) p k
    beginOffset

/-- Specification predicate: the evaluation `RANDOM_GEN(a, b)` has `b - a > 0`
and yields a value in `[a, b)`. -/
def GenCall.inRange (rnd : Nat → Nat) (c : GenCall) : Prop :=
  0 < c.b - c.a ∧ ∃ v, RANDOM_GEN (rnd c.k) c.a c.b = some v ∧ c.a ≤ v ∧ v < c.b

/-- The part after `n` successive updates by `Snake::update(width)`. -/
def Part.updateTimes (p : Part) (width : Int) : Nat → Part
  | 0 => p
  | n + 1 => (p.updateTimes width n).update width

/-- Specification predicate: the part is inside `[0, width)` and its direction
is `+1` or `-1`. -/
def Part.valid (width : Int) (p : Part) : Prop :=
  0 ≤ p.x ∧ p.x < width ∧ (p.dir = 1 ∨ p.dir = -1)

/-- The position of a part on the cycle of its `2 * width` states: `x` while
it moves right, `2 * width - 1 - x` while it moves left. -/
def Part.phase (width : Int) (p : Part) : Int :=
  if p.dir = 1 then p.x else 2 * width - 1 - p.x

/-- The successor on the cycle of `2 * width` states. -/
def nextPhase (width c : Int) : Int :=
  if c + 1 < 2 * width then c + 1 else 0

/-- The position `i` places after `c` on the cycle of `2 * width` states. -/
def shiftPhase (width c i : Int) : Int :=
  if c + i < 2 * width then c + i else c + i - 2 * width

/-! ## The game loop of `run()` -/

/-- The constant `DEFAULT_GAME_TIME`. -/
def DEFAULT_GAME_TIME : Int := 15000

/-- The local variables of `run()` that the loop reads and writes; the three
time points are counts of milliseconds. The display is not modelled. -/
structure GameState where
  stateRunning : Bool
  stateLoose : Bool
  stateSnakes : Int
  pointUpdate : Int
  pointDraw : Int
  pointBegin : Int
  plane : Plane
  player : Player
  deriving DecidableEq, Repr

/-- What one iteration of the `while` loop leaves: the state, the local
`result` (`none` for `-1`), and whether the loop was left by `break`. -/
structure Iteration where
  state : GameState
  result : Option MovementStatus
  exited : Bool
  deriving DecidableEq, Repr

/-- The offsets of the `switch (_getch())`: `'w'`, `'s'`, `'a'`, `'d'`; `none` is
the `default` case. -/
def keyOffset (c : Char) : Option (Int × Int) :=
  if c = 'w' then some (0, -1)
  else if c = 's' then some (0, 1)
  else if c = 'a' then some (-1, 0)
  else if c = 'd' then some (1, 0)
  else none

/-- The statement `result = player.move(xO, yO)` on the state. -/
def GameState.move (s : GameState) (xO yO : Int) : Option (GameState × MovementStatus) :=
  match s.player.move s.plane xO yO with
  | none => none
  | some (st, pl, plane) => some ({ s with player := pl, plane := plane }, st)

/-- The block `if ((now - pointUpdate).count() > 150) { pointUpdate = now;
plane.updateSnakes(); if (result == -1) result = player.move(0, 0); }`. -/
def GameState.tick (s : GameState) (now : Int) (result : Option MovementStatus) :
    Option (GameState × Option MovementStatus) :=
  if now - s.pointUpdate > 150 then
    let s1 := { s with pointUpdate := now, plane := s.plane.updateSnakes }
    match result with
    | some st => some (s1, some st)
    | none =>
      match s1.move 0 0 with
      | none => none
      | some (s2, st) => some (s2, some st)
  else
    some (s, result)

/-- The block `if ((now - pointDraw).count() > 16) { pointDraw = now; ... }`. -/
def GameState.draw (s : GameState) (now : Int) : GameState :=
  if now - s.pointDraw > 16 then { s with pointDraw := now } else s

/-- The final `if (result != -1) switch (result) { ... }`. -/
def GameState.handle (s : GameState) (result : Option MovementStatus) : GameState :=
  match result with
  | some MovementStatus.HitSnake => { s with stateSnakes := s.stateSnakes + 1 }
  | some MovementStatus.HitSnakeHead => { s with stateLoose := true }
  | _ => s

/-- The body of the loop after the key was processed, with the local `result`:
the time-out `break`, the update block, the draw block, the result `switch`. -/
def GameState.afterKey (s : GameState) (now : Int) (result : Option MovementStatus) :
    Option Iteration :=
  if s.stateRunning = true ∧ now - s.pointBegin > DEFAULT_GAME_TIME then
    some { state := s, result := result, exited := true }
  else
    match s.tick now result with
    | none => none
    | some (s1, result1) =>
      some { state := (s1.draw now).handle result1, result := result1, exited := false }

/-- One iteration of the `while` loop of `run()` with the clock reading `now`
and the key read (`none` when `kbhit()` is false). -/
def runIteration (s : GameState) (now : Int) (key : Option Char) : Option Iteration :=
  match key with
  | none => s.afterKey now none
  | some c =>
    match keyOffset c with
    | none => some { state := s, result := none, exited := false }
    | some (xO, yO) =>
      match s.move xO yO with
      | none => none
      | some (s1, st) =>
        let s2 := if s1.stateRunning = false then
          { s1 with stateRunning := true, pointBegin := now } else s1
        s2.afterKey now (some st)

/-- The loop `while (not stateLoose)` over the given clock readings and keys:
the state when the loop is left, or when the inputs are used up. -/
def runLoop : GameState → List (Int × Option Char) → Option GameState
  | s, [] => some s
  | s, (now, key) :: rest =>
    if s.stateLoose = true then some s
    else
      match runIteration s now key with
      | none => none
      | some it => if it.exited = true then some it.state else runLoop it.state rest

/-- The message shown after the loop. -/
inductive Outcome where
  | hitBySnake
  | caught (n : Int)
  deriving DecidableEq, Repr

/-- The end of `run()`: `if (stateLoose) "You got hit by snake!" else
"You caught <stateSnakes> snakes!"`. -/
def runEnd (s : GameState) : Outcome :=
  if s.stateLoose = true then Outcome.hitBySnake else Outcome.caught s.stateSnakes

/-- The state of `run()` before the loop, for the `rand()` stream `rnd`: the
default plane after `generate(3, 0)`, the player at `(width / 2, 1)`. -/
def runInit (rnd : Nat → Nat) : Option GameState :=
  match (Plane.new DEFAULT_GAME_WIDTH DEFAULT_GAME_HEIGHT).generate rnd 0 3 0 with
  | none => none
  | some (_, plane) =>
    some { stateRunning := false, stateLoose := false, stateSnakes := 0,
           pointUpdate := 0, pointDraw := 0, pointBegin := 0,
           plane := plane, player := { x := Int.tdiv plane.width 2, y := 1 } }

/-- The state at the start of the next iteration after the iterations for the
given clock readings and keys; `none` when the loop has been left before. -/
def runAfter : GameState → List (Int × Option Char) → Option GameState
  | s, [] => if s.stateLoose = true then none else some s
  | s, (now, key) :: rest =>
    if s.stateLoose = true then none
    else
      match runIteration s now key with
      | none => none
      | some it => if it.exited = true then none else runAfter it.state rest

/-- Specification predicate: the game has not started and nothing has happened
to the player: the player is at `(15, 1)` on the 31 x 20 plane with its 8
snakes, nothing is caught or lost, and no snake or obstacle is on row 1. -/
def GameState.notStarted (s : GameState) : Prop :=
  s.stateRunning = false ∧ s.stateLoose = false ∧ s.stateSnakes = 0 ∧
  s.player = { x := 15, y := 1 } ∧ s.plane.width = 31 ∧ s.plane.height = 20 ∧
  s.plane.snakes.length = 8 ∧ (∀ snake ∈ s.plane.snakes, snake.y ≠ 1) ∧
  (∀ o ∈ s.plane.obstacles, o.y ≠ 1)

/-! ## Player.move: obstacles and bounds -/

theorem move_of_outside (pl : Player) (plane : Plane) (dx dy : Int)
    (h : pl.x + dx < 0 ∨ pl.x + dx ≥ plane.width ∨ pl.y + dy < 0 ∨ pl.y + dy ≥ plane.height) :
    pl.move plane dx dy = some (MovementStatus.HitObstacle, pl, plane) := by
  simp only [Player.move, if_pos h]

theorem obstacles_any_iff (obstacles : List Obstacle) (xT yT : Int) :
    (obstacles.any fun obstacle =>
      decide (obstacle.y = yT ∧ obstacle.x ≤ xT ∧ xT < obstacle.x + obstacle.width)) = true ↔
    ∃ o ∈ obstacles, o.covers xT yT := by
  simp [List.any_eq_true, Obstacle.covers]

theorem move_of_obstacle (pl : Player) (plane : Plane) (dx dy : Int)
    (h : ∃ o ∈ plane.obstacles, o.covers (pl.x + dx) (pl.y + dy)) :
    pl.move plane dx dy = some (MovementStatus.HitObstacle, pl, plane) := by
  have hany := (obstacles_any_iff plane.obstacles (pl.x + dx) (pl.y + dy)).mpr h
  unfold Player.move
  by_cases hout : pl.x + dx < 0 ∨ pl.x + dx ≥ plane.width ∨ pl.y + dy < 0 ∨ pl.y + dy ≥ plane.height
  · simp only [if_pos hout]
  · simp only [if_neg hout, hany, if_true]

/-- The call `move(dx, dy)` when the target is inside the grid and no obstacle
covers it: the result is decided by the snake loop. -/
theorem move_of_free (pl : Player) (plane : Plane) (dx dy : Int)
    (hin : ¬ (pl.x + dx < 0 ∨ pl.x + dx ≥ plane.width ∨ pl.y + dy < 0 ∨ pl.y + dy ≥ plane.height))
    (hobs : ¬ ∃ o ∈ plane.obstacles, o.covers (pl.x + dx) (pl.y + dy)) :
    pl.move plane dx dy =
      match scanSnakes (pl.x + dx) (pl.y + dy) plane.snakes 0 with
      | none => none
      | some SnakeScan.head => some (MovementStatus.HitSnakeHead, pl, plane)
      | some (SnakeScan.body i) =>
        some (MovementStatus.HitSnake, { x := pl.x + dx, y := pl.y + dy },
          { plane with snakes := plane.snakes.eraseIdx i })
      | some SnakeScan.miss =>
        some (MovementStatus.Succeed, { x := pl.x + dx, y := pl.y + dy }, plane) := by
  have hany : (plane.obstacles.any fun obstacle =>
      decide (obstacle.y = pl.y + dy ∧ obstacle.x ≤ pl.x + dx ∧
        pl.x + dx < obstacle.x + obstacle.width)) = false := by
    rw [Bool.eq_false_iff]
    intro h
    exact hobs ((obstacles_any_iff _ _ _).mp h)
  unfold Player.move
  simp only [if_neg hin, hany]
  rfl

/-! ## Player.move: the snake loop -/

theorem parts_front_back (s : Snake) (hne : s.parts ≠ []) :
    ∃ f b, s.parts.head? = some f ∧ s.parts.getLast? = some b := by
  cases hp : s.parts with
  | nil => exact absurd hp hne
  | cons a l => exact ⟨a, (a :: l).getLast (by simp), by simp, List.getLast?_eq_getLast _ _⟩

theorem scanSnakes_cons_other_row (xT yT : Int) (snake : Snake) (rest : List Snake) (i : Nat)
    (h : snake.y ≠ yT) :
    scanSnakes xT yT (snake :: rest) i = scanSnakes xT yT rest (i + 1) := by
  simp only [scanSnakes, if_neg h]

theorem scanSnakes_cons_not_covers (xT yT : Int) (snake : Snake) (rest : List Snake) (i : Nat)
    (hne : snake.parts ≠ []) (h : ¬ snake.covers xT yT) :
    scanSnakes xT yT (snake :: rest) i = scanSnakes xT yT rest (i + 1) := by
  by_cases hy : snake.y = yT
  · obtain ⟨f, b, hf, hb⟩ := parts_front_back snake hne
    have hspan : ¬ (min f.x b.x ≤ xT ∧ xT ≤ max f.x b.x) := by
      intro hs
      apply h
      simp only [Snake.covers, hf, hb]
      exact ⟨hy, hs⟩
    have hend : ¬ b.x = xT := by
      intro he
      exact hspan ⟨he ▸ min_le_right _ _, he ▸ le_max_right _ _⟩
    simp only [scanSnakes, if_pos hy, hf, hb, if_neg hend, if_neg hspan]
  · exact scanSnakes_cons_other_row xT yT snake rest i hy

theorem scanSnakes_cons_head (xT yT : Int) (snake : Snake) (rest : List Snake) (i : Nat)
    (hc : snake.covers xT yT) (hh : snake.headAt xT) :
    scanSnakes xT yT (snake :: rest) i = some SnakeScan.head := by
  obtain ⟨hy, hm⟩ := hc
  cases hf : snake.parts.head? with
  | none => simp [hf] at hm
  | some f =>
    cases hb : snake.parts.getLast? with
    | none => simp [hf, hb] at hm
    | some b =>
      have he : b.x = xT := by simpa [Snake.headAt, hb] using hh
      simp only [scanSnakes, if_pos hy, hf, hb, if_pos he]

theorem scanSnakes_cons_body (xT yT : Int) (snake : Snake) (rest : List Snake) (i : Nat)
    (hc : snake.covers xT yT) (hh : ¬ snake.headAt xT) :
    scanSnakes xT yT (snake :: rest) i = some (SnakeScan.body i) := by
  obtain ⟨hy, hm⟩ := hc
  cases hf : snake.parts.head? with
  | none => simp [hf] at hm
  | some f =>
    cases hb : snake.parts.getLast? with
    | none => simp [hf, hb] at hm
    | some b =>
      have he : ¬ b.x = xT := by simpa [Snake.headAt, hb] using hh
      have hs : min f.x b.x ≤ xT ∧ xT ≤ max f.x b.x := by simpa [hf, hb] using hm
      simp only [scanSnakes, if_pos hy, hf, hb, if_neg he, if_pos hs]

/-- The snake loop skips every snake that does not cover the target and stops
at the first one that does. -/
theorem scanSnakes_first (xT yT : Int) :
    ∀ (ss : List Snake) (n i : Nat) (s : Snake),
      (∀ t ∈ ss, t.parts ≠ []) → ss[i]? = some s →
      (∀ j, j < i → ∀ t, ss[j]? = some t → ¬ t.covers xT yT) → s.covers xT yT →
      (s.headAt xT → scanSnakes xT yT ss n = some SnakeScan.head) ∧
      (¬ s.headAt xT → scanSnakes xT yT ss n = some (SnakeScan.body (n + i))) := by
  intro ss
  induction ss with
  | nil => intro n i s _ hi; simp at hi
  | cons t rest ih =>
    intro n i s hne hi hfirst hc
    cases i with
    | zero =>
      have hts : t = s := by simpa using hi
      subst hts
      exact ⟨fun hh => scanSnakes_cons_head xT yT t rest n hc hh,
        fun hh => by simpa using scanSnakes_cons_body xT yT t rest n hc hh⟩
    | succ i =>
      have ht : ¬ t.covers xT yT := hfirst 0 (Nat.succ_pos i) t (by simp)
      have hstep := scanSnakes_cons_not_covers xT yT t rest n (hne t (by simp)) ht
      have hrest := ih (n + 1) i s (fun u hu => hne u (List.mem_cons_of_mem t hu))
        (by simpa using hi)
        (fun j hj u hu => hfirst (j + 1) (Nat.succ_lt_succ hj) u (by simpa using hu)) hc
      refine ⟨fun hh => by rw [hstep]; exact hrest.1 hh, fun hh => ?_⟩
      rw [hstep, hrest.2 hh]
      congr 2
      omega

theorem scanSnakes_total (xT yT : Int) :
    ∀ (ss : List Snake) (n : Nat), (∀ t ∈ ss, t.parts ≠ []) →
      ∃ r, scanSnakes xT yT ss n = some r := by
  intro ss
  induction ss with
  | nil => intro n _; exact ⟨SnakeScan.miss, rfl⟩
  | cons t rest ih =>
    intro n hne
    by_cases hc : t.covers xT yT
    · by_cases hh : t.headAt xT
      · exact ⟨_, scanSnakes_cons_head xT yT t rest n hc hh⟩
      · exact ⟨_, scanSnakes_cons_body xT yT t rest n hc hh⟩
    · rw [scanSnakes_cons_not_covers xT yT t rest n (hne t (by simp)) hc]
      exact ih (n + 1) (fun u hu => hne u (List.mem_cons_of_mem t hu))

theorem scanSnakes_miss_iff (xT yT : Int) :
    ∀ (ss : List Snake) (n : Nat), (∀ t ∈ ss, t.parts ≠ []) →
      (scanSnakes xT yT ss n = some SnakeScan.miss ↔ ∀ t ∈ ss, ¬ t.covers xT yT) := by
  intro ss
  induction ss with
  | nil => intro n _; simp [scanSnakes]
  | cons t rest ih =>
    intro n hne
    by_cases hc : t.covers xT yT
    · constructor
      · intro h
        by_cases hh : t.headAt xT
        · rw [scanSnakes_cons_head xT yT t rest n hc hh] at h; simp at h
        · rw [scanSnakes_cons_body xT yT t rest n hc hh] at h; simp at h
      · intro h
        exact absurd hc (h t (by simp))
    · rw [scanSnakes_cons_not_covers xT yT t rest n (hne t (by simp)) hc,
        ih (n + 1) (fun u hu => hne u (List.mem_cons_of_mem t hu))]
      constructor
      · intro h u hu
        rcases List.mem_cons.mp hu with rfl | hu
        · exact hc
        · exact h u hu
      · intro h u hu
        exact h u (List.mem_cons_of_mem t hu)

theorem scanSnakes_other_rows (xT yT : Int) :
    ∀ (ss : List Snake) (n : Nat), (∀ t ∈ ss, t.y ≠ yT) →
      scanSnakes xT yT ss n = some SnakeScan.miss := by
  intro ss
  induction ss with
  | nil => intro n _; rfl
  | cons t rest ih =>
    intro n h
    rw [scanSnakes_cons_other_row xT yT t rest n (h t (by simp))]
    exact ih (n + 1) (fun u hu => h u (List.mem_cons_of_mem t hu))

/-! ## Player.move: characterisation of the outcomes -/

theorem move_total (pl : Player) (plane : Plane) (dx dy : Int)
    (hne : ∀ s ∈ plane.snakes, s.parts ≠ []) :
    ∃ r, pl.move plane dx dy = some r := by
  by_cases hout : pl.x + dx < 0 ∨ pl.x + dx ≥ plane.width ∨ pl.y + dy < 0 ∨ pl.y + dy ≥ plane.height
  · exact ⟨_, move_of_outside pl plane dx dy hout⟩
  · by_cases hobs : ∃ o ∈ plane.obstacles, o.covers (pl.x + dx) (pl.y + dy)
    · exact ⟨_, move_of_obstacle pl plane dx dy hobs⟩
    · rw [move_of_free pl plane dx dy hout hobs]
      obtain ⟨r, hr⟩ := scanSnakes_total (pl.x + dx) (pl.y + dy) plane.snakes 0 hne
      rw [hr]
      cases r <;> exact ⟨_, rfl⟩

theorem move_succeed_iff (pl : Player) (plane : Plane) (dx dy : Int)
    (hne : ∀ s ∈ plane.snakes, s.parts ≠ []) (pl1 : Player) (plane1 : Plane) :
    pl.move plane dx dy = some (MovementStatus.Succeed, pl1, plane1) ↔
      ((0 ≤ pl.x + dx ∧ pl.x + dx < plane.width ∧ 0 ≤ pl.y + dy ∧ pl.y + dy < plane.height) ∧
        (∀ o ∈ plane.obstacles, ¬ o.covers (pl.x + dx) (pl.y + dy)) ∧
        (∀ s ∈ plane.snakes, ¬ s.covers (pl.x + dx) (pl.y + dy))) ∧
      pl1 = { x := pl.x + dx, y := pl.y + dy } ∧ plane1 = plane := by
  by_cases hout : pl.x + dx < 0 ∨ pl.x + dx ≥ plane.width ∨ pl.y + dy < 0 ∨ pl.y + dy ≥ plane.height
  · rw [move_of_outside pl plane dx dy hout]
    constructor
    · intro h; simp at h
    · rintro ⟨⟨⟨h1, h2, h3, h4⟩, -, -⟩, -, -⟩
      omega
  · by_cases hobs : ∃ o ∈ plane.obstacles, o.covers (pl.x + dx) (pl.y + dy)
    · rw [move_of_obstacle pl plane dx dy hobs]
      constructor
      · intro h; simp at h
      · rintro ⟨⟨-, h, -⟩, -, -⟩
        obtain ⟨o, ho, hc⟩ := hobs
        exact absurd hc (h o ho)
    · have hin : 0 ≤ pl.x + dx ∧ pl.x + dx < plane.width ∧ 0 ≤ pl.y + dy ∧
          pl.y + dy < plane.height := by omega
      have hfree : ∀ o ∈ plane.obstacles, ¬ o.covers (pl.x + dx) (pl.y + dy) :=
        fun o ho hc => hobs ⟨o, ho, hc⟩
      have hmiss := scanSnakes_miss_iff (pl.x + dx) (pl.y + dy) plane.snakes 0 hne
      rw [move_of_free pl plane dx dy hout hobs]
      obtain ⟨r, hr⟩ := scanSnakes_total (pl.x + dx) (pl.y + dy) plane.snakes 0 hne
      rw [hr] at hmiss ⊢
      cases r with
      | head =>
        constructor
        · intro h; simp at h
        · rintro ⟨⟨-, -, h⟩, -, -⟩
          have := hmiss.mpr h
          simp at this
      | body i =>
        constructor
        · intro h; simp at h
        · rintro ⟨⟨-, -, h⟩, -, -⟩
          have := hmiss.mpr h
          simp at this
      | miss =>
        have hs := hmiss.mp rfl
        constructor
        · intro h
          simp only [Option.some.injEq, Prod.mk.injEq, true_and] at h
          exact ⟨⟨hin, hfree, hs⟩, h.1.symm, h.2.symm⟩
        · rintro ⟨-, h1, h2⟩
          rw [h1, h2]

theorem move_zero (pl : Player) (plane : Plane) (hrow : ∀ s ∈ plane.snakes, s.y ≠ pl.y) :
    ∃ st, pl.move plane 0 0 = some (st, pl, plane) := by
  by_cases hout : pl.x + 0 < 0 ∨ pl.x + 0 ≥ plane.width ∨ pl.y + 0 < 0 ∨ pl.y + 0 ≥ plane.height
  · exact ⟨_, move_of_outside pl plane 0 0 hout⟩
  · by_cases hobs : ∃ o ∈ plane.obstacles, o.covers (pl.x + 0) (pl.y + 0)
    · exact ⟨_, move_of_obstacle pl plane 0 0 hobs⟩
    · refine ⟨MovementStatus.Succeed, ?_⟩
      rw [move_of_free pl plane 0 0 hout hobs,
        scanSnakes_other_rows (pl.x + 0) (pl.y + 0) plane.snakes 0
          (fun t ht => by simpa using hrow t ht)]
      simp

theorem moveTimes_of_fixed (pl : Player) (plane : Plane) (dx dy : Int) (st : MovementStatus)
    (h : pl.move plane dx dy = some (st, pl, plane)) (n : Nat) :
    Player.moveTimes dx dy n pl plane = some (st, pl, plane) := by
  induction n with
  | zero => exact h
  | succ n ih => simp only [Player.moveTimes, h, ih]

/-! ## Snake.update -/

theorem Part.update_bounce (p : Part) (width : Int)
    (hx0 : 0 ≤ p.x) (hx1 : p.x < width) (hd : p.dir = 1 ∨ p.dir = -1) :
    (0 ≤ (p.update width).x ∧ (p.update width).x < width) ∧
    ((p.update width).dir = 1 ∨ (p.update width).dir = -1) ∧
    ((p.update width).dir = -p.dir ↔ (p.x + p.dir < 0 ∨ p.x + p.dir ≥ width)) ∧
    ((p.x + p.dir < 0 ∨ p.x + p.dir ≥ width) → (p.update width).x = p.x) := by
  unfold Part.update
  by_cases h : p.x + p.dir ≥ width ∨ p.x + p.dir < 0
  · simp only [if_pos h]
    refine ⟨⟨by omega, by omega⟩, by omega, ⟨fun _ => by omega, fun _ => by omega⟩,
      fun _ => by omega⟩
  · simp only [if_neg h]
    refine ⟨⟨by omega, by omega⟩, hd, ⟨fun _ => by omega, fun _ => by omega⟩,
      fun _ => by omega⟩

theorem Snake.updateTimes_single (s : Snake) (width x : Int)
    (hx0 : 0 ≤ x) (hx1 : x < width) (hs : s.parts = [{ x := x, dir := 1 }]) (n : Nat) :
    ∃ p, (s.updateTimes width n).parts = [p] ∧ 0 ≤ p.x ∧ p.x < width ∧
      (p.dir = 1 ∨ p.dir = -1) := by
  induction n with
  | zero => exact ⟨_, hs, hx0, hx1, Or.inl rfl⟩
  | succ n ih =>
    obtain ⟨p, hp, h0, h1, hd⟩ := ih
    have hb := Part.update_bounce p width h0 h1 hd
    refine ⟨p.update width, ?_, hb.1.1, hb.1.2, hb.2.1⟩
    simp only [Snake.updateTimes, Snake.update, hp, List.map_cons, List.map_nil]

/-! ## Plane.generate -/

theorem RANDOM_GEN_range (r : Nat) (a b : Int) (h : 0 < b - a) :
    ∃ v, RANDOM_GEN r a b = some v ∧ a ≤ v ∧ v < b := by
  have hne : ¬ (b - a = 0) := by omega
  have h0 : 0 ≤ Int.tmod (r : Int) (b - a) := Int.tmod_nonneg _ (Int.ofNat_nonneg r)
  have h1 : Int.tmod (r : Int) (b - a) < b - a := Int.tmod_lt_of_pos _ h
  refine ⟨Int.tmod (r : Int) (b - a) + a, ?_, by omega, by omega⟩
  simp only [RANDOM_GEN, if_neg hne]

theorem rowsLoop_range (height endOffset : Int) :
    ∀ (fuel : Nat) (y r : Int), r ∈ rowsLoop height endOffset fuel y →
      y ≤ r ∧ r < height - endOffset - 1 := by
  intro fuel
  induction fuel with
  | zero => intro y r hr; simp [rowsLoop] at hr
  | succ fuel ih =>
    intro y r hr
    unfold rowsLoop at hr
    by_cases hy : y < height - endOffset - 1
    · simp only [if_pos hy, List.mem_cons] at hr
      rcases hr with rfl | hr
      · exact ⟨le_refl _, hy⟩
      · have := ih (y + 2) r hr
        omega
    · simp [if_neg hy] at hr

/-- The obstacle loop of a row ends within its iteration bound, appends to the
collection, and every obstacle it appends is on row `y` inside `[0, width)`. -/
theorem obstacleLoop_spec (rnd : Nat → Nat) (width y : Int) :
    ∀ (fuel k : Nat) (x : Int) (obstacles : List Obstacle),
      0 ≤ x → (width - x).toNat < fuel →
      ∃ k1 added, obstacleLoop rnd width y fuel k x obstacles = some (k1, obstacles ++ added) ∧
        ∀ o ∈ added, 0 ≤ o.x ∧ 1 ≤ o.width ∧ o.x + o.width ≤ width ∧ o.y = y := by
  intro fuel
  induction fuel with
  | zero => intro k x obstacles _ hf; omega
  | succ fuel ih =>
    intro k x obstacles hx hf
    unfold obstacleLoop
    by_cases hxw : x < width
    · obtain ⟨l0, hl0, hl0a, hl0b⟩ := RANDOM_GEN_range (rnd k) 2 7 (by decide)
      obtain ⟨g, hg, hga, hgb⟩ := RANDOM_GEN_range (rnd (k + 1)) 2 4 (by decide)
      simp only [if_pos hxw, hl0, hg]
      by_cases hclip : x + l0 ≥ width
      · simp only [if_pos hclip]
        obtain ⟨k1, added, hres, hadd⟩ := ih (k + 2) (x + (width - x) + g)
          (obstacles ++ [{ x := x, y := y, width := width - x }]) (by omega) (by omega)
        refine ⟨k1, { x := x, y := y, width := width - x } :: added, ?_, ?_⟩
        · rw [hres]; simp
        · intro o ho
          rcases List.mem_cons.mp ho with rfl | ho
          · exact ⟨hx, by simp only; omega, by simp only; omega, rfl⟩
          · exact hadd o ho
      · simp only [if_neg hclip]
        obtain ⟨k1, added, hres, hadd⟩ := ih (k + 2) (x + l0 + g)
          (obstacles ++ [{ x := x, y := y, width := l0 }]) (by omega) (by omega)
        refine ⟨k1, { x := x, y := y, width := l0 } :: added, ?_, ?_⟩
        · rw [hres]; simp
        · intro o ho
          rcases List.mem_cons.mp ho with rfl | ho
          · exact ⟨hx, by simp only; omega, by simp only; omega, rfl⟩
          · exact hadd o ho
    · exact ⟨k, [], by simp [if_neg hxw], by simp⟩

theorem Snake.new_parts_range (sx y length dir width : Int)
    (hl : 0 ≤ length) (hs0 : length + 1 ≤ sx) (hs1 : sx < width - length) :
    ∀ part ∈ (Snake.new sx y length dir).parts, 0 ≤ part.x ∧ part.x < width := by
  intro part hpart
  simp only [Snake.new, List.mem_map, List.mem_range] at hpart
  obtain ⟨i, hi, rfl⟩ := hpart
  have hi2 : (i : Int) < length := by omega
  by_cases hd : dir > 0
  · simp only [if_pos hd]; omega
  · simp only [if_neg hd]; omega

/-- One iteration of the row loop on a plane of width at least 14: every
`RANDOM_GEN` is defined, one snake is appended on row `y + 1` with the drawn
length, direction and start, and the obstacles appended are those of row `y`. -/
theorem generateRow_spec (rnd : Nat → Nat) (p : Plane) (k : Nat) (y : Int)
    (hw : 14 ≤ p.width) :
    ∃ k1 length dir sx added,
      generateRow rnd p k y = some (k1, { p with
        snakes := p.snakes ++ [Snake.new sx (y + 1) length dir],
        obstacles := p.obstacles ++ added }) ∧
      (3 ≤ length ∧ length < 7) ∧ (dir = 1 ∨ dir = -1) ∧
      (length + 1 ≤ sx ∧ sx < p.width - length) ∧
      ∀ o ∈ added, 0 ≤ o.x ∧ 1 ≤ o.width ∧ o.x + o.width ≤ p.width ∧ o.y = y := by
  obtain ⟨len, hlen, hl0, hl1⟩ := RANDOM_GEN_range (rnd k) 3 7 (by decide)
  obtain ⟨d, hd, hd0, hd1⟩ := RANDOM_GEN_range (rnd (k + 1)) 0 2 (by decide)
  obtain ⟨sx, hsx, hs0, hs1⟩ :=
    RANDOM_GEN_range (rnd (k + 2)) (len + 1) (p.width - len) (by omega)
  obtain ⟨x0, hx0, hx0a, hx0b⟩ := RANDOM_GEN_range (rnd (k + 3)) 1 3 (by decide)
  obtain ⟨k1, added, hres, hadd⟩ := obstacleLoop_spec rnd p.width y (p.width.toNat + 1) (k + 4)
    x0 p.obstacles (by omega) (by omega)
  refine ⟨k1, len, if d ≠ 0 then 1 else -1, sx, added, ?_, ⟨hl0, hl1⟩, ?_, ⟨hs0, hs1⟩, hadd⟩
  · simp only [generateRow, hlen, hd, hsx, hx0, hres]
  · by_cases hz : d ≠ 0
    · simp [if_pos hz]
    · simp [if_neg hz]

/-- The row loop on a plane of width at least 14 ends within its iteration
bound; it appends one snake per visited row `r` (on row `r + 1`, in order),
with all parts inside `[0, width)`, and obstacles inside `[0, width)` on
visited rows. -/
theorem generateLoop_spec (rnd : Nat → Nat) (endOffset : Int) :
    ∀ (fuel : Nat) (p : Plane) (k : Nat) (y : Int),
      14 ≤ p.width → (p.height - endOffset - 1 - y).toNat < fuel →
      ∃ k1 newSnakes newObstacles,
        generateLoop rnd endOffset fuel p k y = some (k1, { p with
          snakes := p.snakes ++ newSnakes, obstacles := p.obstacles ++ newObstacles }) ∧
        newSnakes.map (fun s => s.y) =
          (rowsLoop p.height endOffset fuel y).map (fun r => r + 1) ∧
        (∀ s ∈ newSnakes, ∀ part ∈ s.parts, 0 ≤ part.x ∧ part.x < p.width) ∧
        (∀ o ∈ newObstacles, 0 ≤ o.x ∧ 1 ≤ o.width ∧ o.x + o.width ≤ p.width ∧
          o.y ∈ rowsLoop p.height endOffset fuel y) := by
  intro fuel
  induction fuel with
  | zero => intro p k y _ hf; omega
  | succ fuel ih =>
    intro p k y hw hf
    unfold generateLoop rowsLoop
    by_cases hy : y < p.height - endOffset - 1
    · obtain ⟨k1, len, dir, sx, added, hrow, hlen, -, hsx, hadd⟩ := generateRow_spec rnd p k y hw
      obtain ⟨k2, ns, no, hres, hrows, hparts, hobs⟩ := ih
        { p with snakes := p.snakes ++ [Snake.new sx (y + 1) len dir],
                 obstacles := p.obstacles ++ added } k1 (y + 2) hw (by simp only; omega)
      refine ⟨k2, Snake.new sx (y + 1) len dir :: ns, added ++ no, ?_, ?_, ?_, ?_⟩
      · simp only [if_pos hy, hrow, hres, List.append_assoc, List.singleton_append]
      · simp only [if_pos hy, List.map_cons, hrows]
        rfl
      · intro s hs
        rcases List.mem_cons.mp hs with rfl | hs
        · exact Snake.new_parts_range sx (y + 1) len dir p.width (by omega) hsx.1 hsx.2
        · exact hparts s hs
      · intro o ho
        simp only [if_pos hy]
        rcases List.mem_append.mp ho with ho | ho
        · obtain ⟨h1, h2, h3, h4⟩ := hadd o ho
          exact ⟨h1, h2, h3, by rw [h4]; exact List.mem_cons_self _ _⟩
        · obtain ⟨h1, h2, h3, h4⟩ := hobs o ho
          exact ⟨h1, h2, h3, List.mem_cons_of_mem _ h4⟩
    · exact ⟨k, [], [], by simp [if_neg hy], by simp [if_neg hy], by simp, by simp⟩

/-- The method `generate` on a plane of width at least 14 returns, and the
plane it returns is described by `generateLoop_spec` for the rows visited. -/
theorem generate_spec (rnd : Nat → Nat) (p : Plane) (k : Nat) (beginOffset endOffset : Int)
    (hw : 14 ≤ p.width) :
    ∃ k1 newSnakes newObstacles,
      p.generate rnd k beginOffset endOffset = some (k1, { p with
        snakes := p.snakes ++ newSnakes, obstacles := p.obstacles ++ newObstacles }) ∧
      newSnakes.map (fun s => s.y) =
        (rowsVisited p.height beginOffset endOffset).map (fun r => r + 1) ∧
      (∀ s ∈ newSnakes, ∀ part ∈ s.parts, 0 ≤ part.x ∧ part.x < p.width) ∧
      (∀ o ∈ newObstacles, 0 ≤ o.x ∧ 1 ≤ o.width ∧ o.x + o.width ≤ p.width ∧
        o.y ∈ rowsVisited p.height beginOffset endOffset) :=
  generateLoop_spec rnd endOffset _ p k beginOffset hw (by omega)

/-! ## Claims on Player.move -/

/-- C1: when the target of `move(dx, dy)` is inside the grid and some obstacle
of the plane lies on the target row and spans the target column, the call
returns `HitObstacle` and the player, the snakes and the obstacles are as
before, whatever the snakes are. -/
theorem C1_move_onto_obstacle (pl : Player) (plane : Plane) (dx dy : Int)
    (_hx0 : 0 ≤ pl.x + dx) (_hx1 : pl.x + dx < plane.width)
    (_hy0 : 0 ≤ pl.y + dy) (_hy1 : pl.y + dy < plane.height)
    (o : Obstacle) (ho : o ∈ plane.obstacles) (hoy : o.y = pl.y + dy)
    (hox0 : o.x ≤ pl.x + dx) (hox1 : pl.x + dx < o.x + o.width) :
    pl.move plane dx dy = some (MovementStatus.HitObstacle, pl, plane) :=
  move_of_obstacle pl plane dx dy ⟨o, ho, hoy, hox0, hox1⟩

/-- C1, the scenario of the specification: one `Obstacle(x=5, y=0, width=3)`,
the player at `(4, 0)` calling `move(+1, 0)`. -/
theorem C1_move_onto_obstacle_witness :
    Player.move { x := 4, y := 0 }
        { width := 31, height := 20, snakes := [], obstacles := [{ x := 5, y := 0, width := 3 }] }
        1 0 =
      some (MovementStatus.HitObstacle, { x := 4, y := 0 },
        { width := 31, height := 20, snakes := [],
          obstacles := [{ x := 5, y := 0, width := 3 }] }) :=
  C1_move_onto_obstacle { x := 4, y := 0 }
    { width := 31, height := 20, snakes := [], obstacles := [{ x := 5, y := 0, width := 3 }] }
    1 0 (by decide) (by decide) (by decide) (by decide)
    { x := 5, y := 0, width := 3 } (by simp) (by decide) (by decide) (by decide)

/-- C2: when the target of `move(dx, dy)` is outside `[0, width) × [0, height)`,
the call returns `HitObstacle` whatever the obstacles and snakes are, and the
player and the plane are as before. -/
theorem C2_move_out_of_bounds (pl : Player) (plane : Plane) (dx dy : Int)
    (hout : pl.x + dx < 0 ∨ pl.x + dx ≥ plane.width ∨ pl.y + dy < 0 ∨
      pl.y + dy ≥ plane.height) :
    pl.move plane dx dy = some (MovementStatus.HitObstacle, pl, plane) :=
  move_of_outside pl plane dx dy hout

/-- C2 at the left edge: the player at `(0, 1)` of a plane with a snake on its
row calls `move(-1, 0)`. -/
theorem C2_move_out_of_bounds_witness :
    Player.move { x := 0, y := 1 }
        { width := 31, height := 20, snakes := [Snake.new 8 1 3 1], obstacles := [] } (-1) 0 =
      some (MovementStatus.HitObstacle, { x := 0, y := 1 },
        { width := 31, height := 20, snakes := [Snake.new 8 1 3 1], obstacles := [] }) :=
  C2_move_out_of_bounds { x := 0, y := 1 }
    { width := 31, height := 20, snakes := [Snake.new 8 1 3 1], obstacles := [] } (-1) 0
    (Or.inl (by decide))

/-- C3: on a plane whose snakes all have a part, when the target is inside the
grid, no obstacle covers it, and the first snake (index `i`) on the target
row whose span contains the target column has its head there, `move` returns
`HitSnakeHead` and the player and the plane (so every snake) are as before. -/
theorem C3_move_onto_snake_head (pl : Player) (plane : Plane) (dx dy : Int)
    (hne : ∀ s ∈ plane.snakes, s.parts ≠ [])
    (hx0 : 0 ≤ pl.x + dx) (hx1 : pl.x + dx < plane.width)
    (hy0 : 0 ≤ pl.y + dy) (hy1 : pl.y + dy < plane.height)
    (hobs : ∀ o ∈ plane.obstacles, ¬ o.covers (pl.x + dx) (pl.y + dy))
    (i : Nat) (s : Snake) (hi : plane.snakes[i]? = some s)
    (hfirst : ∀ j, j < i → ∀ t, plane.snakes[j]? = some t → ¬ t.covers (pl.x + dx) (pl.y + dy))
    (hc : s.covers (pl.x + dx) (pl.y + dy)) (hh : s.headAt (pl.x + dx)) :
    pl.move plane dx dy = some (MovementStatus.HitSnakeHead, pl, plane) := by
  rw [move_of_free pl plane dx dy (by omega) (fun ⟨o, ho, hoc⟩ => hobs o ho hoc),
    (scanSnakes_first (pl.x + dx) (pl.y + dy) plane.snakes 0 i s hne hi hfirst hc).1 hh]

/-- C3, the scenario of the specification: one snake with the single part at
`(10, 0)`, the player at `(9, 0)` calling `move(+1, 0)`. -/
theorem C3_move_onto_snake_head_witness :
    Player.move { x := 9, y := 0 }
        { width := 31, height := 20, snakes := [Snake.new 10 0 1 1], obstacles := [] } 1 0 =
      some (MovementStatus.HitSnakeHead, { x := 9, y := 0 },
        { width := 31, height := 20, snakes := [Snake.new 10 0 1 1], obstacles := [] }) :=
  C3_move_onto_snake_head { x := 9, y := 0 }
    { width := 31, height := 20, snakes := [Snake.new 10 0 1 1], obstacles := [] } 1 0
    (by decide) (by decide) (by decide) (by decide) (by decide) (by simp)
    0 (Snake.new 10 0 1 1) rfl (fun j hj => absurd hj (Nat.not_lt_zero j))
    (by decide) (by decide)

/-- C4: on a plane whose snakes all have a part, when the target is inside the
grid, no obstacle covers it, and the first snake on the target row whose span
contains the target column is at index `i` with its head elsewhere, `move`
returns `HitSnake`, the snakes are the old ones with index `i` erased, the
obstacles are as before and the player is at the target. -/
theorem C4_move_onto_snake_body (pl : Player) (plane : Plane) (dx dy : Int)
    (hne : ∀ s ∈ plane.snakes, s.parts ≠ [])
    (hx0 : 0 ≤ pl.x + dx) (hx1 : pl.x + dx < plane.width)
    (hy0 : 0 ≤ pl.y + dy) (hy1 : pl.y + dy < plane.height)
    (hobs : ∀ o ∈ plane.obstacles, ¬ o.covers (pl.x + dx) (pl.y + dy))
    (i : Nat) (s : Snake) (hi : plane.snakes[i]? = some s)
    (hfirst : ∀ j, j < i → ∀ t, plane.snakes[j]? = some t → ¬ t.covers (pl.x + dx) (pl.y + dy))
    (hc : s.covers (pl.x + dx) (pl.y + dy)) (hh : ¬ s.headAt (pl.x + dx)) :
    pl.move plane dx dy =
      some (MovementStatus.HitSnake, { x := pl.x + dx, y := pl.y + dy },
        { width := plane.width, height := plane.height,
          snakes := plane.snakes.eraseIdx i, obstacles := plane.obstacles }) := by
  rw [move_of_free pl plane dx dy (by omega) (fun ⟨o, ho, hoc⟩ => hobs o ho hoc),
    (scanSnakes_first (pl.x + dx) (pl.y + dy) plane.snakes 0 i s hne hi hfirst hc).2 hh]
  simp

/-- C4, the scenario of the specification: the snake `Snake(8, 0, 3, +1)` with
parts at `x = 8, 9, 10`, the player at `(9, 1)` calling `move(0, -1)`. -/
theorem C4_move_onto_snake_body_witness :
    (Snake.new 8 0 3 1).parts = [{ x := 8, dir := 1 }, { x := 9, dir := 1 }, { x := 10, dir := 1 }] ∧
    Player.move { x := 9, y := 1 }
        { width := 31, height := 20, snakes := [Snake.new 8 0 3 1], obstacles := [] } 0 (-1) =
      some (MovementStatus.HitSnake, { x := 9, y := 0 },
        { width := 31, height := 20, snakes := [], obstacles := [] }) :=
  ⟨by decide,
    C4_move_onto_snake_body { x := 9, y := 1 }
      { width := 31, height := 20, snakes := [Snake.new 8 0 3 1], obstacles := [] } 0 (-1)
      (by decide) (by decide) (by decide) (by decide) (by decide) (by simp)
      0 (Snake.new 8 0 3 1) rfl (fun j hj => absurd hj (Nat.not_lt_zero j))
      (by decide) (by decide)⟩

/-- C5: on a plane whose snakes all have a part, `move(dx, dy)` returns a
result, it returns `Succeed` exactly when the target is inside the grid, no
obstacle covers it and no snake on its row has the target column inside its
span, and whenever it returns `Succeed` the player is at the target and the
plane is as before. -/
theorem C5_move_succeed_iff_free (pl : Player) (plane : Plane) (dx dy : Int)
    (hne : ∀ s ∈ plane.snakes, s.parts ≠ []) :
    (∃ r, pl.move plane dx dy = some r) ∧
    ((∃ pl1 plane1, pl.move plane dx dy = some (MovementStatus.Succeed, pl1, plane1)) ↔
      ((0 ≤ pl.x + dx ∧ pl.x + dx < plane.width ∧ 0 ≤ pl.y + dy ∧ pl.y + dy < plane.height) ∧
        (∀ o ∈ plane.obstacles, ¬ o.covers (pl.x + dx) (pl.y + dy)) ∧
        (∀ s ∈ plane.snakes, ¬ s.covers (pl.x + dx) (pl.y + dy)))) ∧
    (∀ pl1 plane1, pl.move plane dx dy = some (MovementStatus.Succeed, pl1, plane1) →
      pl1 = { x := pl.x + dx, y := pl.y + dy } ∧ plane1 = plane) := by
  refine ⟨move_total pl plane dx dy hne, ⟨?_, ?_⟩, ?_⟩
  · rintro ⟨pl1, plane1, h⟩
    exact ((move_succeed_iff pl plane dx dy hne pl1 plane1).mp h).1
  · intro h
    exact ⟨_, _, (move_succeed_iff pl plane dx dy hne _ _).mpr ⟨h, rfl, rfl⟩⟩
  · intro pl1 plane1 h
    exact ((move_succeed_iff pl plane dx dy hne pl1 plane1).mp h).2

/-- C5 on a plane with one obstacle and one snake, the player at `(15, 1)`
calling `move(+1, 0)`. -/
theorem C5_move_succeed_iff_free_witness :
    Player.move { x := 15, y := 1 }
        { width := 31, height := 20, snakes := [Snake.new 8 4 3 1],
          obstacles := [{ x := 1, y := 3, width := 4 }] } 1 0 =
      some (MovementStatus.Succeed, { x := 16, y := 1 },
        { width := 31, height := 20, snakes := [Snake.new 8 4 3 1],
          obstacles := [{ x := 1, y := 3, width := 4 }] }) ∧
    ((0 : Int) ≤ 15 + 1 ∧ (15 : Int) + 1 < 31 ∧ (0 : Int) ≤ 1 + 0 ∧ (1 : Int) + 0 < 20) :=
  ⟨by decide,
    (((C5_move_succeed_iff_free { x := 15, y := 1 }
      { width := 31, height := 20, snakes := [Snake.new 8 4 3 1],
        obstacles := [{ x := 1, y := 3, width := 4 }] } 1 0 (by decide)).2.1).mp
      ⟨{ x := 16, y := 1 },
        { width := 31, height := 20, snakes := [Snake.new 8 4 3 1],
          obstacles := [{ x := 1, y := 3, width := 4 }] }, by decide⟩).1⟩

/-- C6: when no snake of the plane is on the player's row, `move(0, 0)` returns
a status and leaves the player and the plane as they were, and any number of
further `move(0, 0)` calls returns that same status and that same state. -/
theorem C6_zero_move_idempotent (pl : Player) (plane : Plane)
    (hrow : ∀ s ∈ plane.snakes, s.y ≠ pl.y) :
    ∃ st, pl.move plane 0 0 = some (st, pl, plane) ∧
      ∀ n, Player.moveTimes 0 0 n pl plane = some (st, pl, plane) := by
  obtain ⟨st, h⟩ := move_zero pl plane hrow
  exact ⟨st, h, moveTimes_of_fixed pl plane 0 0 st h⟩

/-- C6 for the player at `(15, 1)` and a snake on row 4. -/
theorem C6_zero_move_idempotent_witness :
    ∃ st, Player.move { x := 15, y := 1 }
        { width := 31, height := 20, snakes := [Snake.new 8 4 3 1], obstacles := [] } 0 0 =
        some (st, { x := 15, y := 1 },
          { width := 31, height := 20, snakes := [Snake.new 8 4 3 1], obstacles := [] }) ∧
      ∀ n, Player.moveTimes 0 0 n { x := 15, y := 1 }
          { width := 31, height := 20, snakes := [Snake.new 8 4 3 1], obstacles := [] } =
        some (st, { x := 15, y := 1 },
          { width := 31, height := 20, snakes := [Snake.new 8 4 3 1], obstacles := [] }) :=
  C6_zero_move_idempotent { x := 15, y := 1 }
    { width := 31, height := 20, snakes := [Snake.new 8 4 3 1], obstacles := [] } (by decide)

/-! ## Claims on Snake.update -/

/-- C7: a snake with one part starting at `x` in `[0, W)` with `dir = +1` has,
after any number `n` of `update(W)` calls, its part `p` inside `[0, W)` with
`dir` equal to `+1` or `-1`; the next update negates `dir` exactly when
`p.x + p.dir` is below `0` or at least `W`, and then leaves `x` as it was. -/
theorem C7_oscillation_reflective (W x : Int) (_hW : 1 ≤ W) (hx0 : 0 ≤ x) (hx1 : x < W)
    (s : Snake) (hs : s.parts = [{ x := x, dir := 1 }]) (n : Nat) :
    ∃ p q, (s.updateTimes W n).parts = [p] ∧ (s.updateTimes W (n + 1)).parts = [q] ∧
      (0 ≤ p.x ∧ p.x < W) ∧ (p.dir = 1 ∨ p.dir = -1) ∧
      (q.dir = -p.dir ↔ (p.x + p.dir < 0 ∨ p.x + p.dir ≥ W)) ∧
      ((p.x + p.dir < 0 ∨ p.x + p.dir ≥ W) → q.x = p.x) := by
  obtain ⟨p, hp, h0, h1, hd⟩ := Snake.updateTimes_single s W x hx0 hx1 hs n
  have hb := Part.update_bounce p W h0 h1 hd
  refine ⟨p, p.update W, hp, ?_, ⟨h0, h1⟩, hd, hb.2.2.1, hb.2.2.2⟩
  simp only [Snake.updateTimes, Snake.update, hp, List.map_cons, List.map_nil]

/-- C7 for the one-part snake `Snake(4, 0, 1, +1)` at the right edge of a plane
of width 5, after 3 updates. -/
theorem C7_oscillation_reflective_witness :
    ∃ p q, ((Snake.new 4 0 1 1).updateTimes 5 3).parts = [p] ∧
      ((Snake.new 4 0 1 1).updateTimes 5 (3 + 1)).parts = [q] ∧
      (0 ≤ p.x ∧ p.x < 5) ∧ (p.dir = 1 ∨ p.dir = -1) ∧
      (q.dir = -p.dir ↔ (p.x + p.dir < 0 ∨ p.x + p.dir ≥ 5)) ∧
      ((p.x + p.dir < 0 ∨ p.x + p.dir ≥ 5) → q.x = p.x) :=
  C7_oscillation_reflective 5 4 (by decide) (by decide) (by decide) (Snake.new 4 0 1 1) rfl 3

/-! ## Claims on Plane.generate -/

/-- C8: on an empty plane of width at least 14, for every `rand()` sequence and
non-negative offsets, `generate` returns and every obstacle of the plane
afterwards has `0 ≤ x`, `width ≥ 1`, `x + width ≤ plane.width` and
`0 ≤ y < plane.height`. -/
theorem C8_generated_obstacles_inside (rnd : Nat → Nat) (k : Nat)
    (width height beginOffset endOffset : Int)
    (hw : 14 ≤ width) (_hh : 0 ≤ height) (hb : 0 ≤ beginOffset) (he : 0 ≤ endOffset) :
    ∃ k1 p1, (Plane.new width height).generate rnd k beginOffset endOffset = some (k1, p1) ∧
      p1.width = width ∧ p1.height = height ∧
      ∀ o ∈ p1.obstacles,
        0 ≤ o.x ∧ 1 ≤ o.width ∧ o.x + o.width ≤ width ∧ 0 ≤ o.y ∧ o.y < height := by
  obtain ⟨k1, ns, no, hres, -, -, hobs⟩ :=
    generate_spec rnd (Plane.new width height) k beginOffset endOffset hw
  refine ⟨k1, _, hres, rfl, rfl, ?_⟩
  intro o ho
  have ho2 : o ∈ no := by simpa [Plane.new] using ho
  obtain ⟨h1, h2, h3, h4⟩ := hobs o ho2
  have hr := rowsLoop_range _ _ _ _ _ h4
  simp only [Plane.new] at hr
  exact ⟨h1, h2, h3, by omega, by omega⟩

/-- C8 on the default plane with `rand()` returning 0 at every call. -/
theorem C8_generated_obstacles_inside_witness :
    ∃ k1 p1, (Plane.new 31 20).generate (fun _ => 0) 0 3 0 = some (k1, p1) ∧
      p1.width = 31 ∧ p1.height = 20 ∧
      ∀ o ∈ p1.obstacles,
        0 ≤ o.x ∧ 1 ≤ o.width ∧ o.x + o.width ≤ 31 ∧ 0 ≤ o.y ∧ o.y < 20 :=
  C8_generated_obstacles_inside (fun _ => 0) 0 31 20 3 0
    (by decide) (by decide) (by decide) (by decide)

/-- C9: on an empty plane of width at least 14, for every `rand()` sequence and
non-negative offsets, `generate` returns and every snake of the plane
afterwards has its row in `[0, plane.height)` and every part with `x` in
`[0, plane.width)`. -/
theorem C9_generated_snakes_inside (rnd : Nat → Nat) (k : Nat)
    (width height beginOffset endOffset : Int)
    (hw : 14 ≤ width) (hb : 0 ≤ beginOffset) (he : 0 ≤ endOffset) :
    ∃ k1 p1, (Plane.new width height).generate rnd k beginOffset endOffset = some (k1, p1) ∧
      p1.width = width ∧ p1.height = height ∧
      ∀ s ∈ p1.snakes, (0 ≤ s.y ∧ s.y < height) ∧
        ∀ part ∈ s.parts, 0 ≤ part.x ∧ part.x < width := by
  obtain ⟨k1, ns, no, hres, hrows, hparts, -⟩ :=
    generate_spec rnd (Plane.new width height) k beginOffset endOffset hw
  refine ⟨k1, _, hres, rfl, rfl, ?_⟩
  intro s hs
  have hs2 : s ∈ ns := by simpa [Plane.new] using hs
  refine ⟨?_, hparts s hs2⟩
  have hy : s.y ∈ ns.map (fun s => s.y) := List.mem_map_of_mem _ hs2
  rw [hrows, List.mem_map] at hy
  obtain ⟨r, hr, hrs⟩ := hy
  have hr2 := rowsLoop_range _ _ _ _ _ hr
  simp only [Plane.new] at hr2
  omega

/-- C9 on the default plane with `rand()` returning 0 at every call. -/
theorem C9_generated_snakes_inside_witness :
    ∃ k1 p1, (Plane.new 31 20).generate (fun _ => 0) 0 3 0 = some (k1, p1) ∧
      p1.width = 31 ∧ p1.height = 20 ∧
      ∀ s ∈ p1.snakes, (0 ≤ s.y ∧ s.y < 20) ∧
        ∀ part ∈ s.parts, 0 ≤ part.x ∧ part.x < 31 :=
  C9_generated_snakes_inside (fun _ => 0) 0 31 20 3 0 (by decide) (by decide) (by decide)

/-- C10: on the empty default plane (31 x 20), for every `rand()` sequence,
`generate(3, 0)` returns; the rows visited are `3, 5, ..., 17`, the plane has
as many snakes as rows visited, namely 8, they lie in order on the rows
`4, 6, ..., 18`, and every snake row `y` satisfies `3 ≤ y < height - 1`. -/
theorem C10_generate_default_plane (rnd : Nat → Nat) (k : Nat) :
    ∃ k1 p1,
      (Plane.new DEFAULT_GAME_WIDTH DEFAULT_GAME_HEIGHT).generate rnd k 3 0 = some (k1, p1) ∧
      rowsVisited DEFAULT_GAME_HEIGHT 3 0 = [3, 5, 7, 9, 11, 13, 15, 17] ∧
      p1.snakes.length = (rowsVisited DEFAULT_GAME_HEIGHT 3 0).length ∧
      p1.snakes.length = 8 ∧
      p1.snakes.map (fun s => s.y) = [4, 6, 8, 10, 12, 14, 16, 18] ∧
      ∀ s ∈ p1.snakes, 3 ≤ s.y ∧ s.y < DEFAULT_GAME_HEIGHT - 1 := by
  obtain ⟨k1, ns, no, hres, hrows, -, -⟩ :=
    generate_spec rnd (Plane.new DEFAULT_GAME_WIDTH DEFAULT_GAME_HEIGHT) k 3 0 (by decide)
  have hv : rowsVisited DEFAULT_GAME_HEIGHT 3 0 = [3, 5, 7, 9, 11, 13, 15, 17] := by decide
  have hys : ns.map (fun s => s.y) = [4, 6, 8, 10, 12, 14, 16, 18] := by
    rw [hrows]
    simp only [Plane.new, hv]
    decide
  have hlen : ns.length = 8 := by
    have := congrArg List.length hys
    simpa using this
  refine ⟨k1, _, hres, hv, ?_, ?_, ?_, ?_⟩
  · simp [Plane.new, hv, hlen]
  · simp [Plane.new, hlen]
  · simpa [Plane.new] using hys
  · intro s hs
    have hs2 : s ∈ ns := by simpa [Plane.new] using hs
    have hy : s.y ∈ ns.map (fun s => s.y) := List.mem_map_of_mem _ hs2
    rw [hys] at hy
    simp only [List.mem_cons, List.mem_singleton, List.not_mem_nil, or_false] at hy
    simp only [DEFAULT_GAME_HEIGHT]
    omega

/-! ## Plane.updateSnakes: frame and invariant -/

theorem Part.update_x_range (p : Part) (width : Int) (hx0 : 0 ≤ p.x) (hx1 : p.x < width) :
    0 ≤ (p.update width).x ∧ (p.update width).x < width := by
  unfold Part.update
  by_cases h : p.x + p.dir ≥ width ∨ p.x + p.dir < 0
  · simp only [if_pos h]; omega
  · simp only [if_neg h]; omega

theorem Snake.update_parts_ne_nil (s : Snake) (width : Int) (h : s.parts ≠ []) :
    (s.update width).parts ≠ [] := by
  simpa [Snake.update] using h

theorem Plane.updateSnakes_parts_ne_nil (p : Plane) (h : ∀ s ∈ p.snakes, s.parts ≠ []) :
    ∀ s ∈ p.updateSnakes.snakes, s.parts ≠ [] := by
  intro s hs
  simp only [Plane.updateSnakes, List.mem_map] at hs
  obtain ⟨t, ht, rfl⟩ := hs
  exact Snake.update_parts_ne_nil t p.width (h t ht)

theorem Plane.updateSnakes_invariant (p : Plane) (hinv : p.invariant) :
    p.updateSnakes.invariant := by
  refine ⟨hinv.1, ?_⟩
  intro s hs
  simp only [Plane.updateSnakes, List.mem_map] at hs
  obtain ⟨t, ht, rfl⟩ := hs
  obtain ⟨hrow, hparts⟩ := hinv.2 t ht
  refine ⟨hrow, ?_⟩
  intro part hpart
  simp only [Snake.update, List.mem_map] at hpart
  obtain ⟨q, hq, rfl⟩ := hpart
  exact Part.update_x_range q p.width (hparts q hq).1 (hparts q hq).2

/-- The plane returned by `move` is the old one, possibly with one snake erased. -/
theorem move_plane_cases (pl : Player) (plane : Plane) (dx dy : Int)
    (st : MovementStatus) (pl1 : Player) (plane1 : Plane)
    (h : pl.move plane dx dy = some (st, pl1, plane1)) :
    plane1 = plane ∨ ∃ i, plane1 = { plane with snakes := plane.snakes.eraseIdx i } := by
  by_cases hout : pl.x + dx < 0 ∨ pl.x + dx ≥ plane.width ∨ pl.y + dy < 0 ∨ pl.y + dy ≥ plane.height
  · rw [move_of_outside pl plane dx dy hout] at h
    simp only [Option.some.injEq, Prod.mk.injEq] at h
    exact Or.inl h.2.2.symm
  · by_cases hobs : ∃ o ∈ plane.obstacles, o.covers (pl.x + dx) (pl.y + dy)
    · rw [move_of_obstacle pl plane dx dy hobs] at h
      simp only [Option.some.injEq, Prod.mk.injEq] at h
      exact Or.inl h.2.2.symm
    · rw [move_of_free pl plane dx dy hout hobs] at h
      cases hr : scanSnakes (pl.x + dx) (pl.y + dy) plane.snakes 0 with
      | none => simp [hr] at h
      | some r =>
        rw [hr] at h
        cases r with
        | head =>
          simp only [Option.some.injEq, Prod.mk.injEq] at h
          exact Or.inl h.2.2.symm
        | body i =>
          simp only [Option.some.injEq, Prod.mk.injEq] at h
          exact Or.inr ⟨i, h.2.2.symm⟩
        | miss =>
          simp only [Option.some.injEq, Prod.mk.injEq] at h
          exact Or.inl h.2.2.symm

theorem move_invariant (pl : Player) (plane : Plane) (dx dy : Int)
    (st : MovementStatus) (pl1 : Player) (plane1 : Plane)
    (h : pl.move plane dx dy = some (st, pl1, plane1)) (hinv : plane.invariant) :
    plane1.invariant := by
  rcases move_plane_cases pl plane dx dy st pl1 plane1 h with rfl | ⟨i, rfl⟩
  · exact hinv
  · exact ⟨hinv.1, fun s hs => hinv.2 s (List.mem_of_mem_eraseIdx hs)⟩

/-! ## Claims on Plane.updateSnakes and the Plane invariant -/

/-- C11, as stated, fails: the plane of width 1 and height 1 whose only snake
`Snake(0, 0, 0, 1)` has no part satisfies the Plane invariant, and
`move(0, 0)` of the player at `(0, 0)` reads `front()` of the empty `parts`:
no result, so no plane satisfying the invariant, is returned. -/
theorem C11_invariant_counterexample :
    (1 : Int) ≤ (Plane.mk 1 1 [Snake.new 0 0 0 1] []).width ∧
    (Plane.mk 1 1 [Snake.new 0 0 0 1] []).invariant ∧
    ¬ ∃ st pl1 plane1,
      Player.move { x := 0, y := 0 } (Plane.mk 1 1 [Snake.new 0 0 0 1] []) 0 0 =
        some (st, pl1, plane1) ∧ plane1.invariant := by
  refine ⟨by decide, by decide, ?_⟩
  rintro ⟨st, pl1, plane1, h, -⟩
  have hnone : Player.move { x := 0, y := 0 } (Plane.mk 1 1 [Snake.new 0 0 0 1] []) 0 0 = none := by
    decide
  rw [hnone] at h
  exact Option.noConfusion h

/-- C11, amended: a plane of width at least 1 satisfying the Plane invariant
satisfies it after `updateSnakes()` for any part directions, and after every
`move(dx, dy)` that returns; when every snake has at least one part, `move`
returns for any offsets and any player position. -/
theorem C11_invariant_preserved (p : Plane) (_hw : 1 ≤ p.width) (hinv : p.invariant) :
    p.updateSnakes.invariant ∧
    ∀ (pl : Player) (dx dy : Int),
      (∀ st pl1 plane1, pl.move p dx dy = some (st, pl1, plane1) → plane1.invariant) ∧
      ((∀ s ∈ p.snakes, s.parts ≠ []) →
        ∃ st pl1 plane1, pl.move p dx dy = some (st, pl1, plane1) ∧ plane1.invariant) := by
  refine ⟨Plane.updateSnakes_invariant p hinv, fun pl dx dy => ⟨?_, ?_⟩⟩
  · intro st pl1 plane1 h
    exact move_invariant pl p dx dy st pl1 plane1 h hinv
  · intro hne
    obtain ⟨⟨st, pl1, plane1⟩, h⟩ := move_total pl p dx dy hne
    exact ⟨st, pl1, plane1, h, move_invariant pl p dx dy st pl1 plane1 h hinv⟩

/-- C11 amended, on a plane with one obstacle and the snake `Snake(8, 4, 3, 1)`:
the invariant holds after `updateSnakes()` and after `move(0, 1)` of the
player at `(9, 3)`. -/
theorem C11_invariant_preserved_witness :
    (Plane.mk 31 20 [Snake.new 8 4 3 1] [{ x := 1, y := 3, width := 4 }]).updateSnakes.invariant ∧
    ∃ st pl1 plane1,
      Player.move { x := 9, y := 3 }
        (Plane.mk 31 20 [Snake.new 8 4 3 1] [{ x := 1, y := 3, width := 4 }]) 0 1 =
        some (st, pl1, plane1) ∧ plane1.invariant :=
  ⟨(C11_invariant_preserved (Plane.mk 31 20 [Snake.new 8 4 3 1] [{ x := 1, y := 3, width := 4 }])
      (by decide) (by decide)).1,
    ((C11_invariant_preserved (Plane.mk 31 20 [Snake.new 8 4 3 1] [{ x := 1, y := 3, width := 4 }])
      (by decide) (by decide)).2 { x := 9, y := 3 } 0 1).2 (by decide)⟩

/-- C16: `updateSnakes()` leaves width, height and obstacles as they were, keeps
the number and order of the snakes, keeps the origin, the row and the number
of parts of each snake, and replaces each part by its own update; so snakes
with at least one part keep one, and `move` then returns on the updated plane. -/
theorem C16_updateSnakes_frame (p : Plane) :
    p.updateSnakes.width = p.width ∧ p.updateSnakes.height = p.height ∧
    p.updateSnakes.obstacles = p.obstacles ∧
    p.updateSnakes.snakes.length = p.snakes.length ∧
    (∀ (i : Nat) (s : Snake), p.snakes[i]? = some s →
      ∃ s1 : Snake, p.updateSnakes.snakes[i]? = some s1 ∧ s1.x = s.x ∧ s1.y = s.y ∧
        s1.parts.length = s.parts.length ∧
        ∀ (j : Nat) (q : Part), s.parts[j]? = some q →
          s1.parts[j]? = some (q.update p.width)) ∧
    ((∀ s ∈ p.snakes, s.parts ≠ []) →
      (∀ s ∈ p.updateSnakes.snakes, s.parts ≠ []) ∧
      ∀ (pl : Player) (dx dy : Int), ∃ r, pl.move p.updateSnakes dx dy = some r) := by
  refine ⟨rfl, rfl, rfl, by simp [Plane.updateSnakes], ?_, ?_⟩
  · intro i s hi
    refine ⟨s.update p.width, by simp [Plane.updateSnakes, hi], rfl, rfl,
      by simp [Snake.update], ?_⟩
    intro j q hj
    simp [Snake.update, hj]
  · intro hne
    have h1 := Plane.updateSnakes_parts_ne_nil p hne
    exact ⟨h1, fun pl dx dy => move_total pl p.updateSnakes dx dy h1⟩

/-- C16 on a plane with the snake `Snake(8, 4, 3, 1)`: after `updateSnakes()`
every snake still has a part and `move(0, 1)` of the player at `(9, 3)` returns. -/
theorem C16_updateSnakes_frame_witness :
    (∀ s ∈ (Plane.mk 31 20 [Snake.new 8 4 3 1] []).updateSnakes.snakes, s.parts ≠ []) ∧
    ∃ r, Player.move { x := 9, y := 3 } (Plane.mk 31 20 [Snake.new 8 4 3 1] []).updateSnakes 0 1 =
      some r :=
  ⟨((C16_updateSnakes_frame (Plane.mk 31 20 [Snake.new 8 4 3 1] [])).2.2.2.2.2 (by decide)).1,
    ((C16_updateSnakes_frame (Plane.mk 31 20 [Snake.new 8 4 3 1] [])).2.2.2.2.2 (by decide)).2
      { x := 9, y := 3 } 0 1⟩

/-! ## Plane.generate: rows, spacing and the evaluations of RANDOM_GEN -/

theorem GenCall.inRange_of_pos (rnd : Nat → Nat) (c : GenCall) (h : 0 < c.b - c.a) :
    c.inRange rnd :=
  ⟨h, RANDOM_GEN_range (rnd c.k) c.a c.b h⟩

theorem rowSpaced_lower (width : Int) :
    ∀ (obstacles : List Obstacle) (lo hi : Int), rowSpaced width lo hi obstacles →
      ∀ o ∈ obstacles, lo ≤ o.x := by
  intro obstacles
  induction obstacles with
  | nil => intro lo hi _ o ho; simp at ho
  | cons a rest ih =>
    intro lo hi h o ho
    obtain ⟨⟨h1, _⟩, h2, _, _, h5⟩ := h
    rcases List.mem_cons.mp ho with rfl | ho
    · exact h1
    · have := ih _ _ h5 o ho
      omega

theorem rowSpaced_pairwise (width : Int) :
    ∀ (obstacles : List Obstacle) (lo hi : Int), rowSpaced width lo hi obstacles →
      obstacles.Pairwise (fun a b => a.x + a.width < b.x) := by
  intro obstacles
  induction obstacles with
  | nil => intro lo hi _; exact List.Pairwise.nil
  | cons a rest ih =>
    intro lo hi h
    obtain ⟨_, _, _, _, h5⟩ := h
    refine List.Pairwise.cons ?_ (ih _ _ h5)
    intro b hb
    have := rowSpaced_lower width rest _ _ h5 b hb
    omega

/-- The obstacle loop of a row ends within its iteration bound, and the
obstacles it appends are on row `y` and spaced from the first start on. -/
theorem obstacleLoop_spaced (rnd : Nat → Nat) (width y : Int) :
    ∀ (fuel k : Nat) (x : Int) (obstacles : List Obstacle) (lo hi : Int),
      0 ≤ lo → lo ≤ x → x < hi → (width - x).toNat < fuel →
      ∃ k1 added, obstacleLoop rnd width y fuel k x obstacles = some (k1, obstacles ++ added) ∧
        rowSpaced width lo hi added ∧ (∀ o ∈ added, o.y = y) ∧
        (x < width → added ≠ []) ∧ (width ≤ x → added = []) := by
  intro fuel
  induction fuel with
  | zero => intro k x obstacles lo hi _ _ _ hf; omega
  | succ fuel ih =>
    intro k x obstacles lo hi hlo hx hhi hf
    unfold obstacleLoop
    by_cases hxw : x < width
    · obtain ⟨l0, hl0, hl0a, hl0b⟩ := RANDOM_GEN_range (rnd k) 2 7 (by decide)
      obtain ⟨g, hg, hga, hgb⟩ := RANDOM_GEN_range (rnd (k + 1)) 2 4 (by decide)
      simp only [if_pos hxw, hl0, hg]
      by_cases hclip : x + l0 ≥ width
      · simp only [if_pos hclip]
        obtain ⟨k1, added, hres, hsp, hrow, -, hnil⟩ := ih (k + 2) (x + (width - x) + g)
          (obstacles ++ [{ x := x, y := y, width := width - x }])
          (x + (width - x) + 2) (x + (width - x) + 4) (by omega) (by omega) (by omega) (by omega)
        have hadd : added = [] := hnil (by omega)
        subst hadd
        refine ⟨k1, [{ x := x, y := y, width := width - x }], ?_, ?_, ?_, ?_, ?_⟩
        · rw [hres]; simp
        · exact ⟨⟨hx, hhi⟩, by simp only; omega, by simp only; omega,
            Or.inr ⟨by simp only; omega, rfl⟩, trivial⟩
        · intro o ho
          rw [List.mem_singleton.mp ho]
        · intro _; simp
        · intro h; omega
      · simp only [if_neg hclip]
        obtain ⟨k1, added, hres, hsp, hrow, -, -⟩ := ih (k + 2) (x + l0 + g)
          (obstacles ++ [{ x := x, y := y, width := l0 }])
          (x + l0 + 2) (x + l0 + 4) (by omega) (by omega) (by omega) (by omega)
        refine ⟨k1, { x := x, y := y, width := l0 } :: added, ?_, ?_, ?_, ?_, ?_⟩
        · rw [hres]; simp
        · exact ⟨⟨hx, hhi⟩, by simp only; omega, by simp only; omega,
            Or.inl ⟨hl0a, hl0b⟩, hsp⟩
        · intro o ho
          rcases List.mem_cons.mp ho with rfl | ho
          · rfl
          · exact hrow o ho
        · intro _; simp
        · intro h; omega
    · exact ⟨k, [], by simp [if_neg hxw], trivial, by simp, fun h => absurd h hxw, fun _ => rfl⟩

theorem obstacleLoopCalls_pos (rnd : Nat → Nat) (width : Int) :
    ∀ (fuel k : Nat) (x : Int), ∀ c ∈ obstacleLoopCalls rnd width fuel k x, 0 < c.b - c.a := by
  intro fuel
  induction fuel with
  | zero => intro k x c hc; simp [obstacleLoopCalls] at hc
  | succ fuel ih =>
    intro k x c hc
    unfold obstacleLoopCalls at hc
    by_cases hxw : x < width
    · simp only [if_pos hxw, List.mem_cons] at hc
      rcases hc with rfl | hc
      · show (0 : Int) < 7 - 2
        decide
      · cases h1 : RANDOM_GEN (rnd k) 2 7 with
        | none => simp [h1] at hc
        | some l0 =>
          simp only [h1, List.mem_cons] at hc
          rcases hc with rfl | hc
          · show (0 : Int) < 4 - 2
            decide
          · cases h2 : RANDOM_GEN (rnd (k + 1)) 2 4 with
            | none => simp [h2] at hc
            | some g =>
              simp only [h2] at hc
              exact ih _ _ c hc
    · simp [if_neg hxw] at hc

/-- One iteration of the row loop on a plane of width at least 14, in full:
the plane returned, the draws, the spacing of the obstacles of the row, and
the range of every `RANDOM_GEN` evaluated. -/
theorem generateRow_full (rnd : Nat → Nat) (p : Plane) (k : Nat) (y : Int)
    (hw : 14 ≤ p.width) :
    ∃ (k1 : Nat) (r : RowGen), r.y = y ∧
      generateRow rnd p k y = some (k1, { p with
        snakes := p.snakes ++ [r.snake], obstacles := p.obstacles ++ r.obstacles }) ∧
      r.inRange p.width ∧ ∀ c ∈ generateRowCalls rnd p k, 0 < c.b - c.a := by
  obtain ⟨len, hlen, hl0, hl1⟩ := RANDOM_GEN_range (rnd k) 3 7 (by decide)
  obtain ⟨d, hd, hd0, hd1⟩ := RANDOM_GEN_range (rnd (k + 1)) 0 2 (by decide)
  obtain ⟨sx, hsx, hs0, hs1⟩ :=
    RANDOM_GEN_range (rnd (k + 2)) (len + 1) (p.width - len) (by omega)
  obtain ⟨x0, hx0, hx0a, hx0b⟩ := RANDOM_GEN_range (rnd (k + 3)) 1 3 (by decide)
  obtain ⟨k1, added, hres, hsp, hrow, hne, -⟩ := obstacleLoop_spaced rnd p.width y
    (p.width.toNat + 1) (k + 4) x0 p.obstacles 1 3 (by decide) hx0a hx0b (by omega)
  refine ⟨k1, RowGen.mk y len (if d ≠ 0 then 1 else -1) sx added, rfl, ?_, ⟨⟨hl0, hl1⟩, ?_, ⟨hs0, hs1⟩, hne (by omega), hrow, hsp⟩, ?_⟩
  · simp only [generateRow, hlen, hd, hsx, hx0, hres, RowGen.snake]
  · by_cases hz : d ≠ 0
    · simp [if_pos hz]
    · simp [if_neg hz]
  · intro c hc
    simp only [generateRowCalls, hlen, hd, hsx, hx0, List.mem_cons] at hc
    rcases hc with rfl | rfl | rfl | rfl | hc
    · show (0 : Int) < 7 - 3
      decide
    · show (0 : Int) < 2 - 0
      decide
    · show 0 < p.width - len - (len + 1)
      omega
    · show (0 : Int) < 3 - 1
      decide
    · exact obstacleLoopCalls_pos rnd p.width _ _ _ c hc

/-- The row loop on a plane of width at least 14, in full: one record per
visited row, in order. -/
theorem generateLoop_full (rnd : Nat → Nat) (endOffset : Int) :
    ∀ (fuel : Nat) (p : Plane) (k : Nat) (y : Int),
      14 ≤ p.width → (p.height - endOffset - 1 - y).toNat < fuel →
      ∃ (k1 : Nat) (rows : List RowGen),
        generateLoop rnd endOffset fuel p k y = some (k1, { p with
          snakes := p.snakes ++ rows.map RowGen.snake,
          obstacles := p.obstacles ++ (rows.map RowGen.obstacles).flatten }) ∧
        rows.map RowGen.y = rowsLoop p.height endOffset fuel y ∧
        (∀ r ∈ rows, r.inRange p.width) ∧
        ∀ c ∈ generateLoopCalls rnd endOffset fuel p k y, 0 < c.b - c.a := by
  intro fuel
  induction fuel with
  | zero => intro p k y _ hf; omega
  | succ fuel ih =>
    intro p k y hw hf
    unfold generateLoop rowsLoop generateLoopCalls
    by_cases hy : y < p.height - endOffset - 1
    · obtain ⟨k1, r, hry, hrow, hr, hcalls⟩ := generateRow_full rnd p k y hw
      obtain ⟨k2, rows, hres, hrows, hall, hcalls2⟩ := ih
        { p with snakes := p.snakes ++ [r.snake],
                 obstacles := p.obstacles ++ r.obstacles } k1 (y + 2) hw (by simp only; omega)
      refine ⟨k2, r :: rows, ?_, ?_, ?_, ?_⟩
      · simp only [if_pos hy, hrow, hres, List.append_assoc, List.singleton_append,
          List.map_cons, List.flatten_cons]
      · simp only [if_pos hy, List.map_cons, hrows, hry]
      · intro t ht
        rcases List.mem_cons.mp ht with rfl | ht
        · exact hr
        · exact hall t ht
      · intro c hc
        simp only [if_pos hy, hrow, List.mem_append] at hc
        rcases hc with hc | hc
        · exact hcalls c hc
        · exact hcalls2 c hc
    · exact ⟨k, [], by simp [if_neg hy], by simp [if_neg hy], by simp, by simp [if_neg hy]⟩

/-- The method `generate` on a plane of width at least 14, in full. -/
theorem generate_full (rnd : Nat → Nat) (p : Plane) (k : Nat) (beginOffset endOffset : Int)
    (hw : 14 ≤ p.width) :
    ∃ (k1 : Nat) (rows : List RowGen),
      p.generate rnd k beginOffset endOffset = some (k1, { p with
        snakes := p.snakes ++ rows.map RowGen.snake,
        obstacles := p.obstacles ++ (rows.map RowGen.obstacles).flatten }) ∧
      rows.map RowGen.y = rowsVisited p.height beginOffset endOffset ∧
      (∀ r ∈ rows, r.inRange p.width) ∧
      ∀ c ∈ p.generateCalls rnd k beginOffset endOffset, 0 < c.b - c.a :=
  generateLoop_full rnd endOffset _ p k beginOffset hw (by omega)

theorem rowsLoop_pairwise (height endOffset : Int) :
    ∀ (fuel : Nat) (y : Int), (rowsLoop height endOffset fuel y).Pairwise (fun a b => a ≠ b) := by
  intro fuel
  induction fuel with
  | zero => intro y; exact List.Pairwise.nil
  | succ fuel ih =>
    intro y
    unfold rowsLoop
    by_cases hy : y < height - endOffset - 1
    · simp only [if_pos hy]
      refine List.Pairwise.cons ?_ (ih (y + 2))
      intro b hb
      have := rowsLoop_range height endOffset fuel (y + 2) b hb
      omega
    · simp only [if_neg hy]
      exact List.Pairwise.nil

/-- The obstacles of the final collection that lie on the row of a record are
the obstacles of that record, when the rows of the records are distinct. -/
theorem filter_row_obstacles :
    ∀ (rows : List RowGen), (∀ r ∈ rows, ∀ o ∈ r.obstacles, o.y = r.y) →
      (rows.map RowGen.y).Pairwise (fun a b => a ≠ b) →
      ∀ r ∈ rows, ((rows.map RowGen.obstacles).flatten).filter (fun o => decide (o.y = r.y)) =
        r.obstacles := by
  intro rows
  induction rows with
  | nil => intro _ _ r hr; simp at hr
  | cons t rest ih =>
    intro hrow hpw r hr
    rw [List.map_cons, List.pairwise_cons] at hpw
    simp only [List.map_cons, List.flatten_cons, List.filter_append]
    have hrest : ∀ r ∈ rest, ∀ o ∈ r.obstacles, o.y = r.y :=
      fun u hu => hrow u (List.mem_cons_of_mem t hu)
    rcases List.mem_cons.mp hr with rfl | hr
    · have h1 : r.obstacles.filter (fun o => decide (o.y = r.y)) = r.obstacles := by
        rw [List.filter_eq_self]
        intro o ho
        simpa using hrow r (List.mem_cons_self _ _) o ho
      have h2 : ((rest.map RowGen.obstacles).flatten).filter (fun o => decide (o.y = r.y)) =
          [] := by
        rw [List.filter_eq_nil_iff]
        intro o ho
        simp only [List.mem_flatten, List.mem_map] at ho
        obtain ⟨l, ⟨u, hu, rfl⟩, hol⟩ := ho
        have hne := hpw.1 u.y (List.mem_map_of_mem _ hu)
        have := hrest u hu o hol
        simp only [decide_eq_true_eq]
        omega
      rw [h1, h2, List.append_nil]
    · have hne := hpw.1 r.y (List.mem_map_of_mem _ hr)
      have h1 : t.obstacles.filter (fun o => decide (o.y = r.y)) = [] := by
        rw [List.filter_eq_nil_iff]
        intro o ho
        have := hrow t (List.mem_cons_self _ _) o ho
        simp only [decide_eq_true_eq]
        omega
      rw [h1, List.nil_append]
      exact ih hrest hpw.2 r hr

theorem Snake.new_parts_detail (sx y length dir : Int) :
    ∀ part ∈ (Snake.new sx y length dir).parts, part.dir = dir ∧
      (dir > 0 → sx ≤ part.x ∧ part.x ≤ sx + length - 1) ∧
      (¬ dir > 0 → sx + 1 ≤ part.x ∧ part.x ≤ sx + length) := by
  intro part hpart
  simp only [Snake.new, List.mem_map, List.mem_range] at hpart
  obtain ⟨i, hi, rfl⟩ := hpart
  refine ⟨rfl, ?_, ?_⟩
  · intro hd
    simp only [if_pos hd]
    omega
  · intro hd
    simp only [if_neg hd]
    omega

/-- The obstacles appended by the obstacle loop of row `y` are on row `y`,
whenever the loop returns. -/
theorem obstacleLoop_rows (rnd : Nat → Nat) (width y : Int) :
    ∀ (fuel k : Nat) (x : Int) (obstacles : List Obstacle) (k1 : Nat) (res : List Obstacle),
      obstacleLoop rnd width y fuel k x obstacles = some (k1, res) →
      ∃ added, res = obstacles ++ added ∧ ∀ o ∈ added, o.y = y := by
  intro fuel
  induction fuel with
  | zero => intro k x obstacles k1 res h; simp [obstacleLoop] at h
  | succ fuel ih =>
    intro k x obstacles k1 res h
    unfold obstacleLoop at h
    by_cases hxw : x < width
    · simp only [if_pos hxw] at h
      cases h1 : RANDOM_GEN (rnd k) 2 7 with
      | none => simp [h1] at h
      | some l0 =>
        cases h2 : RANDOM_GEN (rnd (k + 1)) 2 4 with
        | none => simp [h1, h2] at h
        | some g =>
          simp only [h1, h2] at h
          obtain ⟨added, hres, hrow⟩ := ih _ _ _ k1 res h
          refine ⟨Obstacle.mk x y (if x + l0 ≥ width then width - x else l0) :: added,
            by rw [hres]; simp, ?_⟩
          intro o ho
          rcases List.mem_cons.mp ho with rfl | ho
          · rfl
          · exact hrow o ho
    · simp only [if_neg hxw, Option.some.injEq, Prod.mk.injEq] at h
      exact ⟨[], by simp [h.2], by simp⟩

/-- Whenever one iteration of the row loop returns, it has appended one snake
on row `y + 1` and obstacles on row `y`. -/
theorem generateRow_rows (rnd : Nat → Nat) (p : Plane) (k : Nat) (y : Int)
    (k1 : Nat) (p1 : Plane) (h : generateRow rnd p k y = some (k1, p1)) :
    ∃ s added, p1.snakes = p.snakes ++ [s] ∧ p1.obstacles = p.obstacles ++ added ∧
      s.y = y + 1 ∧ ∀ o ∈ added, o.y = y := by
  unfold generateRow at h
  cases h1 : RANDOM_GEN (rnd k) 3 7 with
  | none => simp [h1] at h
  | some len =>
    cases h2 : RANDOM_GEN (rnd (k + 1)) 0 2 with
    | none => simp [h1, h2] at h
    | some d =>
      cases h3 : RANDOM_GEN (rnd (k + 2)) (len + 1) (p.width - len) with
      | none => simp [h1, h2, h3] at h
      | some sx =>
        cases h4 : RANDOM_GEN (rnd (k + 3)) 1 3 with
        | none => simp [h1, h2, h3, h4] at h
        | some x0 =>
          cases h5 : obstacleLoop rnd p.width y (p.width.toNat + 1) (k + 4) x0 p.obstacles with
          | none => simp [h1, h2, h3, h4, h5] at h
          | some r =>
            obtain ⟨k2, res⟩ := r
            simp only [h1, h2, h3, h4, h5, Option.some.injEq, Prod.mk.injEq] at h
            obtain ⟨added, hres, hrow⟩ := obstacleLoop_rows rnd p.width y _ _ _ _ k2 res h5
            refine ⟨Snake.new sx (y + 1) len (if d ≠ 0 then 1 else -1), added, ?_, ?_, rfl, hrow⟩
            · rw [← h.2]
            · rw [← h.2, ← hres]

/-! ## Further claims on Plane.generate -/

/-- C12: on an empty plane of width at least 14, for every `rand()` sequence,
the obstacles of every visited row `y`, in creation order, are spaced: there
is a first one and it starts at 1 or 2, each next one starts 2 or 3 cells
after the end of the previous one, each has width in `[2, 7)` or else ends at
the grid edge and is the last of the row; so they are pairwise disjoint and
none covers column 0. -/
theorem C12_obstacle_spacing (rnd : Nat → Nat) (k : Nat)
    (width height beginOffset endOffset : Int) (hw : 14 ≤ width) :
    ∃ k1 p1, (Plane.new width height).generate rnd k beginOffset endOffset = some (k1, p1) ∧
      ∀ y ∈ rowsVisited height beginOffset endOffset,
        p1.obstacles.filter (fun o => decide (o.y = y)) ≠ [] ∧
        rowSpaced width 1 3 (p1.obstacles.filter (fun o => decide (o.y = y))) ∧
        (p1.obstacles.filter (fun o => decide (o.y = y))).Pairwise
          (fun a b => a.x + a.width < b.x) ∧
        ∀ o ∈ p1.obstacles.filter (fun o => decide (o.y = y)), ¬ o.covers 0 y := by
  obtain ⟨k1, rows, hres, hrows, hall, -⟩ :=
    generate_full rnd (Plane.new width height) k beginOffset endOffset hw
  refine ⟨k1, _, hres, ?_⟩
  intro y hy
  have hy2 : y ∈ rows.map RowGen.y := by rw [hrows]; exact hy
  obtain ⟨r, hr, hry⟩ := List.mem_map.mp hy2
  have hpw : (rows.map RowGen.y).Pairwise (fun a b => a ≠ b) := by
    rw [hrows]; exact rowsLoop_pairwise _ _ _ _
  have hfil := filter_row_obstacles rows (fun t ht => (hall t ht).2.2.2.2.1) hpw r hr
  obtain ⟨-, -, -, hne, -, hsp⟩ := hall r hr
  simp only [Plane.new, List.nil_append] at hsp ⊢
  rw [← hry, hfil]
  refine ⟨hne, hsp, rowSpaced_pairwise width _ _ _ hsp, ?_⟩
  intro o ho hc
  have h1 := rowSpaced_lower width _ _ _ hsp o ho
  have h2 := hc.2.1
  omega

/-- C12 on the default plane with `rand()` returning 0 at every call. -/
theorem C12_obstacle_spacing_witness :
    ∃ k1 p1, (Plane.new 31 20).generate (fun _ => 0) 0 3 0 = some (k1, p1) ∧
      ∀ y ∈ rowsVisited 20 3 0,
        p1.obstacles.filter (fun o => decide (o.y = y)) ≠ [] ∧
        rowSpaced 31 1 3 (p1.obstacles.filter (fun o => decide (o.y = y))) ∧
        (p1.obstacles.filter (fun o => decide (o.y = y))).Pairwise
          (fun a b => a.x + a.width < b.x) ∧
        ∀ o ∈ p1.obstacles.filter (fun o => decide (o.y = y)), ¬ o.covers 0 y :=
  C12_obstacle_spacing (fun _ => 0) 0 31 20 3 0 (by decide)

/-- C13, as stated, fails: with `rand()` returning 0 at every call, the
iteration for row 3 on the empty default plane creates the snake
`Snake(4, 4, 3, -1)` on row 4, not on row 3 where its obstacles are. -/
theorem C13_same_row_counterexample :
    generateRow (fun _ => 0) (Plane.new 31 20) 0 3 =
      some (20, Plane.mk 31 20 [Snake.new 4 4 3 (-1)]
        [Obstacle.mk 1 3 2, Obstacle.mk 5 3 2, Obstacle.mk 9 3 2, Obstacle.mk 13 3 2,
          Obstacle.mk 17 3 2, Obstacle.mk 21 3 2, Obstacle.mk 25 3 2, Obstacle.mk 29 3 2]) ∧
    (Snake.new 4 4 3 (-1)).y = 4 ∧ ¬ (Snake.new 4 4 3 (-1)).y = 3 := by
  decide

/-- C13, amended: whenever the iteration of the row loop for the row `y`
returns, it has appended exactly one snake, on row `y + 1`, and obstacles that
all lie on row `y`; on a plane of width at least 14 the iteration returns. -/
theorem C13_iteration_rows (rnd : Nat → Nat) (p : Plane) (k : Nat) (y : Int) :
    (∀ k1 p1, generateRow rnd p k y = some (k1, p1) →
      ∃ s added, p1.snakes = p.snakes ++ [s] ∧ p1.obstacles = p.obstacles ++ added ∧
        s.y = y + 1 ∧ ∀ o ∈ added, o.y = y) ∧
    (14 ≤ p.width → ∃ k1 p1, generateRow rnd p k y = some (k1, p1)) := by
  refine ⟨fun k1 p1 h => generateRow_rows rnd p k y k1 p1 h, ?_⟩
  intro hw
  obtain ⟨k1, r, -, h, -⟩ := generateRow_full rnd p k y hw
  exact ⟨k1, _, h⟩

/-- C13 amended, on the empty default plane for the row 3 with `rand()`
returning 0 at every call: the iteration returns, its snake is on row 4 and
its obstacles are on row 3. -/
theorem C13_iteration_rows_witness :
    (∃ s added,
      (Plane.mk 31 20 [Snake.new 4 4 3 (-1)]
        [Obstacle.mk 1 3 2, Obstacle.mk 5 3 2, Obstacle.mk 9 3 2, Obstacle.mk 13 3 2,
          Obstacle.mk 17 3 2, Obstacle.mk 21 3 2, Obstacle.mk 25 3 2,
          Obstacle.mk 29 3 2]).snakes = (Plane.new 31 20).snakes ++ [s] ∧
      (Plane.mk 31 20 [Snake.new 4 4 3 (-1)]
        [Obstacle.mk 1 3 2, Obstacle.mk 5 3 2, Obstacle.mk 9 3 2, Obstacle.mk 13 3 2,
          Obstacle.mk 17 3 2, Obstacle.mk 21 3 2, Obstacle.mk 25 3 2,
          Obstacle.mk 29 3 2]).obstacles = (Plane.new 31 20).obstacles ++ added ∧
      s.y = 3 + 1 ∧ ∀ o ∈ added, o.y = 3) ∧
    ∃ k1 p1, generateRow (fun _ => 0) (Plane.new 31 20) 0 3 = some (k1, p1) :=
  ⟨(C13_iteration_rows (fun _ => 0) (Plane.new 31 20) 0 3).1 20
      (Plane.mk 31 20 [Snake.new 4 4 3 (-1)]
        [Obstacle.mk 1 3 2, Obstacle.mk 5 3 2, Obstacle.mk 9 3 2, Obstacle.mk 13 3 2,
          Obstacle.mk 17 3 2, Obstacle.mk 21 3 2, Obstacle.mk 25 3 2, Obstacle.mk 29 3 2])
      (by decide),
    (C13_iteration_rows (fun _ => 0) (Plane.new 31 20) 0 3).2 (by decide)⟩

/-- The margins that `generate` keeps on an empty plane of width at least 14,
for every `rand()` sequence: every part of every generated snake has `x` in
`[1, width - 1]` and `dir` equal to `+1` or `-1`, and a part with `dir = +1`
has `x ≤ width - 2`. -/
theorem generate_snake_margins (rnd : Nat → Nat) (k : Nat)
    (width height beginOffset endOffset : Int) (hw : 14 ≤ width) :
    ∃ k1 p1, (Plane.new width height).generate rnd k beginOffset endOffset = some (k1, p1) ∧
      ∀ s ∈ p1.snakes, ∀ part ∈ s.parts,
        1 ≤ part.x ∧ part.x ≤ width - 1 ∧ (part.dir = 1 ∨ part.dir = -1) ∧
        (part.dir = 1 → part.x ≤ width - 2) := by
  obtain ⟨k1, rows, hres, -, hall, -⟩ :=
    generate_full rnd (Plane.new width height) k beginOffset endOffset hw
  refine ⟨k1, _, hres, ?_⟩
  intro s hs part hpart
  simp only [Plane.new, List.nil_append, List.mem_map] at hs
  obtain ⟨r, hr, rfl⟩ := hs
  obtain ⟨hlen, hdir, hsx, -, -, -⟩ := hall r hr
  simp only [Plane.new] at hsx
  obtain ⟨hd, hpos, hneg⟩ := Snake.new_parts_detail r.sx (r.y + 1) r.length r.dir part hpart
  rcases hdir with h1 | h1
  · have := hpos (by omega)
    exact ⟨by omega, by omega, Or.inl (by omega), fun _ => by omega⟩
  · have := hneg (by omega)
    exact ⟨by omega, by omega, Or.inr (by omega), fun h => by omega⟩

/-- C15 fails on the code for `dir = -1`. When the first draws of
`generate(3, 0)` on the empty default plane are length 3, direction `-1` and
start 27 (`rand()` returning 0, 0, 23), the first snake is
`Snake(27, 4, 3, -1)`: the constructor places its parts at `x + length - i`,
that is `30, 29, 28`, and the first one is at `x = 30 = width - 1`, flush
against the grid edge. With the same length and start and direction `+1`
(`rand()` returning 0, 1, 23) the parts are at `x + i`, that is
`27, 28, 29`, one cell away from the edge. -/
theorem C15_flush_against_right_edge :
    ((Plane.new 31 20).generate (fun n => if n = 2 then 23 else 0) 0 3 0).map
        (fun r => r.2.snakes.head?) = some (some (Snake.new 27 4 3 (-1))) ∧
    (Snake.new 27 4 3 (-1)).parts = [Part.mk 30 (-1), Part.mk 29 (-1), Part.mk 28 (-1)] ∧
    (Snake.new 27 4 3 (-1)).parts.head? = some { x := 31 - 1, dir := -1 } ∧
    ((Plane.new 31 20).generate (fun n => if n = 1 then 1 else if n = 2 then 23 else 0)
        0 3 0).map (fun r => r.2.snakes.head?) = some (some (Snake.new 27 4 3 1)) ∧
    (Snake.new 27 4 3 1).parts = [Part.mk 27 1, Part.mk 28 1, Part.mk 29 1] := by
  decide

/-- C17: on a plane of width at least 14 (so on the default plane), for every
`rand()` sequence, every `RANDOM_GEN(a, b)` evaluated by `generate` has
`b - a > 0` and yields a value in `[a, b)`; `generate` returns, so every
obstacle loop ends, and every snake it creates is `Snake(sx, y + 1, length, dir)`
for a visited row `y`, with `length` in `[3, 7)`, `dir` equal to `+1` or `-1`
and `sx` in `[length + 1, width - length)`. -/
theorem C17_generation_parameters_in_range (rnd : Nat → Nat) (p : Plane) (k : Nat)
    (beginOffset endOffset : Int) (hw : 14 ≤ p.width) :
    (∀ c ∈ p.generateCalls rnd k beginOffset endOffset, c.inRange rnd) ∧
    ∃ (k1 : Nat) (rows : List RowGen),
      p.generate rnd k beginOffset endOffset = some (k1, { p with
        snakes := p.snakes ++ rows.map RowGen.snake,
        obstacles := p.obstacles ++ (rows.map RowGen.obstacles).flatten }) ∧
      rows.map RowGen.y = rowsVisited p.height beginOffset endOffset ∧
      ∀ r ∈ rows, (3 ≤ r.length ∧ r.length < 7) ∧ (r.dir = 1 ∨ r.dir = -1) ∧
        (r.length + 1 ≤ r.sx ∧ r.sx < p.width - r.length) := by
  obtain ⟨k1, rows, hres, hrows, hall, hcalls⟩ := generate_full rnd p k beginOffset endOffset hw
  refine ⟨fun c hc => GenCall.inRange_of_pos rnd c (hcalls c hc), k1, rows, hres, hrows, ?_⟩
  intro r hr
  exact ⟨(hall r hr).1, (hall r hr).2.1, (hall r hr).2.2.1⟩

/-- C17 on the default plane with `generate(3, 0)` and `rand()` returning 0 at
every call. -/
theorem C17_generation_parameters_in_range_witness :
    (∀ c ∈ (Plane.new DEFAULT_GAME_WIDTH DEFAULT_GAME_HEIGHT).generateCalls (fun _ => 0) 0 3 0,
      c.inRange (fun _ => 0)) ∧
    ∃ (k1 : Nat) (rows : List RowGen),
      (Plane.new DEFAULT_GAME_WIDTH DEFAULT_GAME_HEIGHT).generate (fun _ => 0) 0 3 0 =
        some (k1, { Plane.new DEFAULT_GAME_WIDTH DEFAULT_GAME_HEIGHT with
          snakes := (Plane.new DEFAULT_GAME_WIDTH DEFAULT_GAME_HEIGHT).snakes ++
            rows.map RowGen.snake,
          obstacles := (Plane.new DEFAULT_GAME_WIDTH DEFAULT_GAME_HEIGHT).obstacles ++
            (rows.map RowGen.obstacles).flatten }) ∧
      rows.map RowGen.y =
        rowsVisited (Plane.new DEFAULT_GAME_WIDTH DEFAULT_GAME_HEIGHT).height 3 0 ∧
      ∀ r ∈ rows, (3 ≤ r.length ∧ r.length < 7) ∧ (r.dir = 1 ∨ r.dir = -1) ∧
        (r.length + 1 ≤ r.sx ∧
          r.sx < (Plane.new DEFAULT_GAME_WIDTH DEFAULT_GAME_HEIGHT).width - r.length) :=
  C17_generation_parameters_in_range (fun _ => 0)
    (Plane.new DEFAULT_GAME_WIDTH DEFAULT_GAME_HEIGHT) 0 3 0 (by decide)

/-! ## Snake.update: the cycle of states of a part -/

theorem Part.phase_range (width : Int) (p : Part) (h : p.valid width) :
    0 ≤ p.phase width ∧ p.phase width < 2 * width ∧
    (p.dir = 1 ↔ p.phase width < width) ∧
    (p.dir = 1 → p.x = p.phase width) ∧
    (p.dir = -1 → p.x = 2 * width - 1 - p.phase width) := by
  obtain ⟨h0, h1, hd⟩ := h
  cases p with
  | mk x d =>
    simp only at h0 h1 hd
    rcases hd with rfl | rfl
    · have e : (Part.mk x 1).phase width = x := by simp [Part.phase]
      rw [e]
      exact ⟨h0, by omega, ⟨fun _ => h1, fun _ => rfl⟩, fun _ => rfl, fun h => by simp at h⟩
    · have e : (Part.mk x (-1)).phase width = 2 * width - 1 - x := by simp [Part.phase]
      rw [e]
      refine ⟨by omega, by omega, ⟨fun h => by simp at h, fun h => ?_⟩, fun h => by simp at h,
        fun _ => ?_⟩
      · exfalso; omega
      · show x = 2 * width - 1 - (2 * width - 1 - x)
        omega

theorem Part.eq_of_phase_eq (width : Int) (p q : Part) (hp : p.valid width) (hq : q.valid width)
    (h : p.phase width = q.phase width) : p = q := by
  obtain ⟨-, -, hp3, hp4, hp5⟩ := Part.phase_range width p hp
  obtain ⟨-, -, hq3, hq4, hq5⟩ := Part.phase_range width q hq
  have hpd := hp.2.2
  have hqd := hq.2.2
  cases p with
  | mk px pd =>
    cases q with
    | mk qx qd =>
      simp only [Part.mk.injEq]
      simp only at hp3 hp4 hp5 hq3 hq4 hq5 hpd hqd
      rcases hpd with h1 | h1 <;> rcases hqd with h2 | h2
      · exact ⟨by rw [hp4 h1, hq4 h2, h], by omega⟩
      · have := hp3.mp h1
        have : ¬ qd = 1 := by omega
        have := mt hq3.mpr this
        omega
      · have := hq3.mp h2
        have : ¬ pd = 1 := by omega
        have := mt hp3.mpr this
        omega
      · exact ⟨by rw [hp5 h1, hq5 h2, h], by omega⟩

theorem Part.update_phase (width : Int) (p : Part) (h : p.valid width) :
    (p.update width).valid width ∧
    (p.update width).phase width = nextPhase width (p.phase width) := by
  obtain ⟨h0, h1, hd⟩ := h
  cases p with
  | mk x d =>
    simp only at h0 h1 hd
    rcases hd with rfl | rfl
    · have e1 : (Part.mk x 1).phase width = x := by simp [Part.phase]
      have hlt : x + 1 < 2 * width := by omega
      by_cases hflip : x + 1 ≥ width ∨ x + 1 < 0
      · have e : (Part.mk x 1).update width = Part.mk x (-1) := by
          simp [Part.update, hflip]
        have e2 : (Part.mk x (-1)).phase width = 2 * width - 1 - x := by simp [Part.phase]
        rw [e, e1, e2]
        refine ⟨⟨h0, h1, Or.inr rfl⟩, ?_⟩
        simp only [nextPhase, if_pos hlt]
        omega
      · have e : (Part.mk x 1).update width = Part.mk (x + 1) 1 := by
          simp only [Part.update, if_neg hflip]
        have e2 : (Part.mk (x + 1) 1).phase width = x + 1 := by simp [Part.phase]
        rw [e, e1, e2]
        refine ⟨⟨by show 0 ≤ x + 1; omega, by show x + 1 < width; omega, Or.inl rfl⟩, ?_⟩
        simp only [nextPhase, if_pos hlt]
    · have e1 : (Part.mk x (-1)).phase width = 2 * width - 1 - x := by simp [Part.phase]
      by_cases hflip : x + -1 ≥ width ∨ x + -1 < 0
      · have e : (Part.mk x (-1)).update width = Part.mk x 1 := by
          simp only [Part.update, if_pos hflip]
          simp
        have e2 : (Part.mk x 1).phase width = x := by simp [Part.phase]
        have hge : ¬ (2 * width - 1 - x + 1 < 2 * width) := by omega
        rw [e, e1, e2]
        refine ⟨⟨h0, h1, Or.inl rfl⟩, ?_⟩
        simp only [nextPhase, if_neg hge]
        omega
      · have e : (Part.mk x (-1)).update width = Part.mk (x + -1) (-1) := by
          simp only [Part.update, if_neg hflip]
        have e2 : (Part.mk (x + -1) (-1)).phase width = 2 * width - 1 - (x + -1) := by
          simp [Part.phase]
        have hlt : 2 * width - 1 - x + 1 < 2 * width := by omega
        rw [e, e1, e2]
        refine ⟨⟨by show 0 ≤ x + -1; omega, by show x + -1 < width; omega, Or.inr rfl⟩, ?_⟩
        simp only [nextPhase, if_pos hlt]
        omega

theorem Part.updateTimes_valid (width : Int) (p : Part) (h : p.valid width) (n : Nat) :
    (p.updateTimes width n).valid width := by
  induction n with
  | zero => exact h
  | succ n ih => exact (Part.update_phase width _ ih).1

theorem Part.updateTimes_add (width : Int) (p : Part) (m n : Nat) :
    p.updateTimes width (m + n) = (p.updateTimes width m).updateTimes width n := by
  induction n with
  | zero => rfl
  | succ n ih =>
    show (p.updateTimes width (m + n)).update width = _
    rw [ih]
    rfl

/-- While the end of the cycle is not reached, `n` updates advance the phase by `n`. -/
theorem Part.updateTimes_phase (width : Int) (p : Part) (h : p.valid width) (n : Nat)
    (hn : p.phase width + n < 2 * width) :
    (p.updateTimes width n).phase width = p.phase width + n := by
  induction n with
  | zero => simp [Part.updateTimes]
  | succ n ih =>
    have ih2 := ih (by omega)
    have hv := Part.updateTimes_valid width p h n
    show ((p.updateTimes width n).update width).phase width = _
    rw [(Part.update_phase width _ hv).2, ih2]
    unfold nextPhase
    have : p.phase width + (n : Int) + 1 < 2 * width := by omega
    simp only [if_pos this]
    omega

/-- A part inside `[0, W)` with direction `+1` or `-1` is back in its state
after `2 * W` updates. -/
theorem Part.updateTimes_period (width : Int) (p : Part) (h : p.valid width) :
    p.updateTimes width (2 * width).toNat = p := by
  obtain ⟨hc0, hc1, -, -, -⟩ := Part.phase_range width p h
  have hsplit : (2 * width).toNat =
      (2 * width - 1 - p.phase width).toNat + 1 + (p.phase width).toNat := by omega
  rw [hsplit, Part.updateTimes_add, Part.updateTimes_add]
  have hv1 := Part.updateTimes_valid width p h (2 * width - 1 - p.phase width).toNat
  have h1 := Part.updateTimes_phase width p h (2 * width - 1 - p.phase width).toNat (by omega)
  have hv2 : ((p.updateTimes width (2 * width - 1 - p.phase width).toNat).updateTimes width
      1).valid width := Part.updateTimes_valid width _ hv1 1
  have h2 : ((p.updateTimes width (2 * width - 1 - p.phase width).toNat).updateTimes width
      1).phase width = 0 := by
    show ((p.updateTimes width (2 * width - 1 - p.phase width).toNat).update width).phase width
      = 0
    rw [(Part.update_phase width _ hv1).2, h1]
    unfold nextPhase
    have : ¬ (p.phase width + ((2 * width - 1 - p.phase width).toNat : Int) + 1 < 2 * width) := by
      omega
    simp only [if_neg this]
  have h3 := Part.updateTimes_phase width _ hv2 (p.phase width).toNat (by rw [h2]; omega)
  apply Part.eq_of_phase_eq width _ _ (Part.updateTimes_valid width _ hv2 _) h
  rw [h3, h2]
  omega

theorem Snake.updateTimes_parts (s : Snake) (width : Int) (n : Nat) :
    s.updateTimes width n =
      { s with parts := s.parts.map fun p => p.updateTimes width n } := by
  induction n with
  | zero => simp [Snake.updateTimes, Part.updateTimes]
  | succ n ih =>
    show (s.updateTimes width n).update width = _
    rw [ih]
    simp [Snake.update, Part.updateTimes]

theorem Plane.updateSnakesTimes_snakes (p : Plane) (n : Nat) :
    p.updateSnakesTimes n =
      { p with snakes := p.snakes.map fun s => s.updateTimes p.width n } := by
  induction n with
  | zero => simp [Plane.updateSnakesTimes, Snake.updateTimes]
  | succ n ih =>
    show (p.updateSnakesTimes n).updateSnakes = _
    rw [ih]
    simp [Plane.updateSnakes, Snake.updateTimes]

/-! ## Claims on the oscillation of snakes -/

/-- C18, as stated, fails: the plane of width 5 whose snake has the single part
`(x = 0, dir = 2)` satisfies the Plane invariant, and after `2 * 5`
`updateSnakes()` calls the part is `(x = 2, dir = -2)`. -/
theorem C18_period_counterexample :
    (1 : Int) ≤ (Plane.mk 5 1 [Snake.mk 0 0 [Part.mk 0 2]] []).width ∧
    (Plane.mk 5 1 [Snake.mk 0 0 [Part.mk 0 2]] []).invariant ∧
    (Plane.mk 5 1 [Snake.mk 0 0 [Part.mk 0 2]] []).updateSnakesTimes (2 * 5) =
      Plane.mk 5 1 [Snake.mk 0 0 [Part.mk 2 (-2)]] [] ∧
    (Plane.mk 5 1 [Snake.mk 0 0 [Part.mk 0 2]] []).updateSnakesTimes (2 * 5) ≠
      Plane.mk 5 1 [Snake.mk 0 0 [Part.mk 0 2]] [] := by
  decide

/-- C18, amended: for every width `W ≥ 1`, a part with `x` in `[0, W)` and `dir`
equal to `+1` or `-1` is back at the same `(x, dir)` after `2 * W` updates;
so a plane of width `W` satisfying the Plane invariant, all of whose parts
have `dir` equal to `+1` or `-1`, is exactly as it was after `2 * W`
successive `updateSnakes()` calls. -/
theorem C18_oscillation_period (W : Int) (_hW : 1 ≤ W) :
    (∀ part : Part, 0 ≤ part.x → part.x < W → (part.dir = 1 ∨ part.dir = -1) →
      part.updateTimes W (2 * W).toNat = part) ∧
    (∀ p : Plane, p.width = W → p.invariant →
      (∀ s ∈ p.snakes, ∀ part ∈ s.parts, part.dir = 1 ∨ part.dir = -1) →
      p.updateSnakesTimes (2 * W).toNat = p) := by
  refine ⟨fun part h0 h1 hd => Part.updateTimes_period W part ⟨h0, h1, hd⟩, ?_⟩
  intro p hp hinv hdir
  subst hp
  rw [Plane.updateSnakesTimes_snakes]
  have hs : p.snakes.map (fun s => s.updateTimes p.width (2 * p.width).toNat) = p.snakes := by
    conv_rhs => rw [← List.map_id p.snakes]
    apply List.map_congr_left
    intro s hs
    rw [Snake.updateTimes_parts]
    have hparts : s.parts.map (fun q => q.updateTimes p.width (2 * p.width).toNat) = s.parts := by
      conv_rhs => rw [← List.map_id s.parts]
      apply List.map_congr_left
      intro q hq
      exact Part.updateTimes_period p.width q
        ⟨((hinv.2 s hs).2 q hq).1, ((hinv.2 s hs).2 q hq).2, hdir s hs q hq⟩
    rw [hparts]
    rfl
  rw [hs]

/-- C18 amended, for width 5: the part `(4, +1)` and the plane with the snake
`Snake(1, 0, 3, 1)`. -/
theorem C18_oscillation_period_witness :
    (Part.mk 4 1).updateTimes 5 (2 * 5 : Int).toNat = Part.mk 4 1 ∧
    (Plane.mk 5 1 [Snake.new 1 0 3 1] []).updateSnakesTimes (2 * 5 : Int).toNat =
      Plane.mk 5 1 [Snake.new 1 0 3 1] [] :=
  ⟨(C18_oscillation_period 5 (by decide)).1 (Part.mk 4 1) (by decide) (by decide) (by decide),
    (C18_oscillation_period 5 (by decide)).2 (Plane.mk 5 1 [Snake.new 1 0 3 1] []) rfl
      (by decide) (by decide)⟩

theorem nextPhase_shiftPhase (width c i : Int) (hc0 : 0 ≤ c) (hc1 : c < 2 * width)
    (hi0 : 0 ≤ i) (hi1 : i < 2 * width) :
    nextPhase width (shiftPhase width c i) = shiftPhase width (nextPhase width c) i := by
  unfold nextPhase shiftPhase
  split_ifs <;> omega

/-- Two parts that are `i` places apart on the cycle stay `i` places apart. -/
theorem Part.updateTimes_shift (width : Int) (p q : Part) (i : Int)
    (hp : p.valid width) (hq : q.valid width) (hi0 : 0 ≤ i) (hi1 : i < 2 * width)
    (h : q.phase width = shiftPhase width (p.phase width) i) (n : Nat) :
    (q.updateTimes width n).phase width =
      shiftPhase width ((p.updateTimes width n).phase width) i := by
  induction n with
  | zero => exact h
  | succ n ih =>
    have hvp := Part.updateTimes_valid width p hp n
    have hvq := Part.updateTimes_valid width q hq n
    obtain ⟨hc0, hc1, -, -, -⟩ := Part.phase_range width _ hvp
    show ((q.updateTimes width n).update width).phase width =
      shiftPhase width (((p.updateTimes width n).update width).phase width) i
    rw [(Part.update_phase width _ hvq).2, (Part.update_phase width _ hvp).2, ih,
      nextPhase_shiftPhase width _ i hc0 hc1 hi0 hi1]

theorem Snake.new_parts_eq (x y L dir : Int) (hdir : dir = 1 ∨ dir = -1) :
    (Snake.new x y L dir).parts =
      (List.range L.toNat).map
        (fun (i : Nat) => Part.mk (if dir = 1 then x + (i : Int) else x + L - (i : Int)) dir) := by
  simp only [Snake.new]
  apply List.map_congr_left
  intro i _
  rcases hdir with rfl | rfl
  · simp
  · simp

/-- After `n` updates of a snake built by the constructor inside `[0, W)`,
whenever all parts have the same direction `d`, part `i` is at `c + d * i`. -/
theorem Snake.new_updateTimes_aligned (W x y L dir : Int) (hdir : dir = 1 ∨ dir = -1)
    (hL : 1 ≤ L)
    (hin : ∀ part ∈ (Snake.new x y L dir).parts, 0 ≤ part.x ∧ part.x < W)
    (n : Nat) (d : Int)
    (hd : ∀ part ∈ ((Snake.new x y L dir).updateTimes W n).parts, part.dir = d) :
    (d = 1 ∨ d = -1) ∧
    ∃ c, ((Snake.new x y L dir).updateTimes W n).parts =
      (List.range L.toNat).map (fun (i : Nat) => Part.mk (c + d * (i : Int)) d) := by
  have hparts := Snake.new_parts_eq x y L dir hdir
  rw [Snake.updateTimes_parts] at hd ⊢
  simp only [hparts, List.map_map] at hd ⊢
  rw [hparts] at hin
  -- the initial parts
  have hvalid : ∀ i : Nat, i < L.toNat →
      (Part.mk (if dir = 1 then x + (i : Int) else x + L - (i : Int)) dir).valid W := by
    intro i hi
    have := hin _ (List.mem_map.mpr ⟨i, List.mem_range.mpr hi, rfl⟩)
    exact ⟨this.1, this.2, hdir⟩
  have h0 := hvalid 0 (by omega)
  have hlast := hvalid (L.toNat - 1) (by omega)
  have hLW : L ≤ W := by
    have a0 := h0.1
    have a1 := h0.2.1
    have b0 := hlast.1
    have b1 := hlast.2.1
    rcases hdir with rfl | rfl
    · simp only [if_true] at a0 a1 b0 b1
      omega
    · have hne : ¬ ((-1 : Int) = 1) := by decide
      simp only [if_neg hne] at a0 a1 b0 b1
      omega
  have hphase : ∀ i : Nat, i < L.toNat →
      (Part.mk (if dir = 1 then x + (i : Int) else x + L - (i : Int)) dir).phase W =
        shiftPhase W ((Part.mk (if dir = 1 then x + ((0 : Nat) : Int)
          else x + L - ((0 : Nat) : Int)) dir).phase W) i := by
    intro i hi
    have a0 := (hvalid i hi).1
    have a1 := (hvalid i hi).2.1
    have b0 := h0.1
    have b1 := h0.2.1
    rcases hdir with rfl | rfl
    · simp only [if_true] at a0 a1 b0 b1
      have hlt : x + ((0 : Nat) : Int) + (i : Int) < 2 * W := by omega
      simp only [Part.phase, if_true, shiftPhase, if_pos hlt]
      omega
    · have hne : ¬ ((-1 : Int) = 1) := by decide
      simp only [if_neg hne] at a0 a1 b0 b1
      have hlt : 2 * W - 1 - (x + L - ((0 : Nat) : Int)) + (i : Int) < 2 * W := by omega
      simp only [Part.phase, if_neg hne, shiftPhase, if_pos hlt]
      omega
  -- the parts after `n` updates
  have hv0 := Part.updateTimes_valid W _ h0 n
  obtain ⟨ha0, ha1, ha3, ha4, ha5⟩ := Part.phase_range W _ hv0
  have hd0 : ((Part.mk (if dir = 1 then x + ((0 : Nat) : Int) else x + L - ((0 : Nat) : Int))
      dir).updateTimes W n).dir = d :=
    hd _ (List.mem_map.mpr ⟨0, List.mem_range.mpr (by omega), rfl⟩)
  have hdd : d = 1 ∨ d = -1 := by rw [← hd0]; exact hv0.2.2
  refine ⟨hdd, ?_⟩
  have key : ∀ i : Nat, i < L.toNat →
      ((Part.mk (if dir = 1 then x + (i : Int) else x + L - (i : Int)) dir).updateTimes W n).dir
        = d ∧
      ((Part.mk (if dir = 1 then x + (i : Int) else x + L - (i : Int)) dir).updateTimes W
        n).phase W = shiftPhase W ((Part.mk (if dir = 1 then x + ((0 : Nat) : Int)
          else x + L - ((0 : Nat) : Int)) dir).updateTimes W n |>.phase W) i ∧
      ((Part.mk (if dir = 1 then x + (i : Int) else x + L - (i : Int)) dir).updateTimes W
        n).valid W := by
    intro i hi
    exact ⟨hd _ (List.mem_map.mpr ⟨i, List.mem_range.mpr hi, rfl⟩),
      Part.updateTimes_shift W _ _ i h0 (hvalid i hi) (by omega) (by omega) (hphase i hi) n,
      Part.updateTimes_valid W _ (hvalid i hi) n⟩
  rcases hdd with rfl | rfl
  · refine ⟨((Part.mk (if dir = 1 then x + ((0 : Nat) : Int) else x + L - ((0 : Nat) : Int))
      dir).updateTimes W n).phase W, ?_⟩
    apply List.map_congr_left
    intro i hi
    obtain ⟨k1, k2, k3⟩ := key i (List.mem_range.mp hi)
    obtain ⟨-, -, -, kx, -⟩ := Part.phase_range W _ k3
    have hlt := ha3.mp hd0
    have hx := kx k1
    unfold shiftPhase at k2
    have hcond : ((Part.mk (if dir = 1 then x + ((0 : Nat) : Int) else x + L - ((0 : Nat) : Int))
      dir).updateTimes W n).phase W + (i : Int) < 2 * W := by
      have := List.mem_range.mp hi
      omega
    rw [if_pos hcond] at k2
    simp only [Function.comp]
    cases hq : (Part.mk (if dir = 1 then x + (i : Int) else x + L - (i : Int))
      dir).updateTimes W n with
    | mk qx qd =>
      rw [hq] at k1 k2 hx
      simp only at k1 hx
      simp only [Part.mk.injEq]
      exact ⟨by rw [hx, k2]; ring, k1⟩
  · refine ⟨2 * W - 1 - ((Part.mk (if dir = 1 then x + ((0 : Nat) : Int)
      else x + L - ((0 : Nat) : Int)) dir).updateTimes W n).phase W, ?_⟩
    apply List.map_congr_left
    intro i hi
    obtain ⟨k1, k2, k3⟩ := key i (List.mem_range.mp hi)
    obtain ⟨-, -, k5, -, kx⟩ := Part.phase_range W _ k3
    have hge : ¬ (((Part.mk (if dir = 1 then x + ((0 : Nat) : Int)
      else x + L - ((0 : Nat) : Int)) dir).updateTimes W n).phase W < W) := by
      intro hlt
      have := ha3.mpr hlt
      omega
    have hx := kx k1
    have hge2 : ¬ (((Part.mk (if dir = 1 then x + (i : Int) else x + L - (i : Int))
      dir).updateTimes W n).phase W < W) := by
      intro hlt
      have := k5.mpr hlt
      omega
    unfold shiftPhase at k2
    have hcond : ((Part.mk (if dir = 1 then x + ((0 : Nat) : Int) else x + L - ((0 : Nat) : Int))
      dir).updateTimes W n).phase W + (i : Int) < 2 * W := by
      by_contra hcon
      rw [if_neg hcon] at k2
      have := List.mem_range.mp hi
      omega
    rw [if_pos hcond] at k2
    simp only [Function.comp]
    cases hq : (Part.mk (if dir = 1 then x + (i : Int) else x + L - (i : Int))
      dir).updateTimes W n with
    | mk qx qd =>
      rw [hq] at k1 k2 hx
      simp only at k1 hx
      simp only [Part.mk.injEq]
      exact ⟨by rw [hx, k2]; ring, k1⟩

/-- C19: a snake built by `Snake(x, y, L, dir)` with `dir` equal to `+1` or `-1`,
`L ≥ 1` and all parts inside `[0, W)` has part `i` at `x + i` (`dir = +1`) or
`x + L - i` (`dir = -1`), so its parts fill `[x, x + L - 1]` or `[x + 1, x + L]`
and its last part is at `x + L - 1` or `x + 1`, the foremost cell in the
direction of travel; after any number `n` of `update(W)` calls, whenever all
parts have the same direction `d`, `d` is `+1` or `-1`, part `i` is at
`c + d * i` for some `c`, and the last part is at `c + d * (L - 1)`, the
extreme cell in direction `d`. -/
theorem C19_head_leads (W x y L dir : Int) (hdir : dir = 1 ∨ dir = -1) (hL : 1 ≤ L)
    (hin : ∀ part ∈ (Snake.new x y L dir).parts, 0 ≤ part.x ∧ part.x < W) :
    (Snake.new x y L dir).parts =
      (List.range L.toNat).map
        (fun (i : Nat) => Part.mk (if dir = 1 then x + (i : Int) else x + L - (i : Int)) dir) ∧
    (Snake.new x y L dir).parts.getLast? =
      some (Part.mk (if dir = 1 then x + L - 1 else x + 1) dir) ∧
    ∀ (n : Nat) (d : Int),
      (∀ part ∈ ((Snake.new x y L dir).updateTimes W n).parts, part.dir = d) →
      (d = 1 ∨ d = -1) ∧
      ∃ c, ((Snake.new x y L dir).updateTimes W n).parts =
          (List.range L.toNat).map (fun (i : Nat) => Part.mk (c + d * (i : Int)) d) ∧
        ((Snake.new x y L dir).updateTimes W n).parts.getLast? =
          some (Part.mk (c + d * (L - 1)) d) := by
  have hn : L.toNat ≠ 0 := by omega
  have hcast : ((L.toNat - 1 : Nat) : Int) = L - 1 := by omega
  refine ⟨Snake.new_parts_eq x y L dir hdir, ?_, ?_⟩
  · rw [Snake.new_parts_eq x y L dir hdir, List.getLast?_map, List.getLast?_range, if_neg hn]
    simp only [Option.map_some', hcast]
    rcases hdir with rfl | rfl
    · have hone : (1 : Int) = 1 := rfl
      have hx : x + (L - 1) = x + L - 1 := by omega
      simp only [if_pos hone, hx, if_true]
    · have hne : ¬ ((-1 : Int) = 1) := by decide
      simp only [if_neg hne]
      congr 2
      omega
  · intro n d hd
    obtain ⟨hdd, c, hc⟩ := Snake.new_updateTimes_aligned W x y L dir hdir hL hin n d hd
    refine ⟨hdd, c, hc, ?_⟩
    rw [hc, List.getLast?_map, List.getLast?_range, if_neg hn]
    simp only [Option.map_some', hcast]

/-- C19 for the snake `Snake(1, 0, 3, -1)` with parts at `4, 3, 2` on width 6:
after 5 updates all its parts move right, at `0, 1, 2`, the last part
foremost. -/
theorem C19_head_leads_witness :
    (Snake.new 1 0 3 (-1)).parts = [Part.mk 4 (-1), Part.mk 3 (-1), Part.mk 2 (-1)] ∧
    ((Snake.new 1 0 3 (-1)).updateTimes 6 5).parts = [Part.mk 0 1, Part.mk 1 1, Part.mk 2 1] ∧
    ((1 : Int) = 1 ∨ (1 : Int) = -1) ∧
    ∃ c, ((Snake.new 1 0 3 (-1)).updateTimes 6 5).parts =
        (List.range (3 : Int).toNat).map (fun (i : Nat) => Part.mk (c + 1 * (i : Int)) 1) ∧
      ((Snake.new 1 0 3 (-1)).updateTimes 6 5).parts.getLast? =
        some (Part.mk (c + 1 * (3 - 1)) 1) :=
  ⟨by decide, by decide,
    (C19_head_leads 6 1 0 3 (-1) (by decide) (by decide) (by decide)).2.2 5 1 (by decide)⟩

/-! ## The game loop -/

theorem GameState.move_fields (s s1 : GameState) (xO yO : Int) (st : MovementStatus)
    (h : s.move xO yO = some (s1, st)) :
    s.player.move s.plane xO yO = some (st, s1.player, s1.plane) ∧
    s1.stateRunning = s.stateRunning ∧ s1.stateLoose = s.stateLoose ∧
    s1.stateSnakes = s.stateSnakes ∧ s1.pointUpdate = s.pointUpdate ∧
    s1.pointDraw = s.pointDraw ∧ s1.pointBegin = s.pointBegin := by
  unfold GameState.move at h
  cases hm : s.player.move s.plane xO yO with
  | none => simp [hm] at h
  | some r =>
    obtain ⟨st1, pl, plane⟩ := r
    simp only [hm, Option.some.injEq, Prod.mk.injEq] at h
    obtain ⟨h1, h2⟩ := h
    subst h1 h2
    exact ⟨rfl, rfl, rfl, rfl, rfl, rfl, rfl⟩

theorem GameState.draw_fields (s : GameState) (now : Int) :
    (s.draw now).stateRunning = s.stateRunning ∧ (s.draw now).stateLoose = s.stateLoose ∧
    (s.draw now).stateSnakes = s.stateSnakes ∧ (s.draw now).plane = s.plane ∧
    (s.draw now).player = s.player ∧ (s.draw now).pointBegin = s.pointBegin := by
  unfold GameState.draw
  split <;> exact ⟨rfl, rfl, rfl, rfl, rfl, rfl⟩

theorem GameState.handle_fields (s : GameState) (result : Option MovementStatus) :
    (s.handle result).stateRunning = s.stateRunning ∧ (s.handle result).plane = s.plane ∧
    (s.handle result).player = s.player ∧ (s.handle result).pointBegin = s.pointBegin := by
  unfold GameState.handle
  split <;> exact ⟨rfl, rfl, rfl, rfl⟩

theorem GameState.tick_running (s s1 : GameState) (now : Int)
    (result r1 : Option MovementStatus) (h : s.tick now result = some (s1, r1)) :
    s1.stateRunning = s.stateRunning := by
  unfold GameState.tick at h
  by_cases ht : now - s.pointUpdate > 150
  · simp only [if_pos ht] at h
    cases result with
    | some st =>
      simp only [Option.some.injEq, Prod.mk.injEq] at h
      rw [← h.1]
    | none =>
      simp only at h
      cases hm : GameState.move
          { s with pointUpdate := now, plane := s.plane.updateSnakes } 0 0 with
      | none => simp [hm] at h
      | some r =>
        obtain ⟨s2, st⟩ := r
        simp only [hm, Option.some.injEq, Prod.mk.injEq] at h
        rw [← h.1]
        exact (GameState.move_fields _ s2 0 0 st hm).2.1
  · simp only [if_neg ht, Option.some.injEq, Prod.mk.injEq] at h
    rw [← h.1]

theorem GameState.afterKey_running (s : GameState) (now : Int)
    (result : Option MovementStatus) (it : Iteration) (h : s.afterKey now result = some it) :
    it.state.stateRunning = s.stateRunning := by
  unfold GameState.afterKey at h
  by_cases hb : s.stateRunning = true ∧ now - s.pointBegin > DEFAULT_GAME_TIME
  · simp only [if_pos hb, Option.some.injEq] at h
    rw [← h]
  · simp only [if_neg hb] at h
    cases ht : s.tick now result with
    | none => simp [ht] at h
    | some r =>
      obtain ⟨s1, r1⟩ := r
      simp only [ht, Option.some.injEq] at h
      rw [← h]
      show ((s1.draw now).handle r1).stateRunning = s.stateRunning
      rw [(GameState.handle_fields _ r1).1, (GameState.draw_fields s1 now).1]
      exact GameState.tick_running s s1 now result r1 ht

/-- Once the game runs it keeps running, and a directional key starts it. -/
theorem runIteration_running (s : GameState) (now : Int) (key : Option Char) (it : Iteration)
    (h : runIteration s now key = some it)
    (hrun : s.stateRunning = true ∨ ∃ c, key = some c ∧ keyOffset c ≠ none) :
    it.state.stateRunning = true := by
  unfold runIteration at h
  cases key with
  | none =>
    simp only at h
    rcases hrun with hrun | ⟨c, hc, -⟩
    · rw [GameState.afterKey_running s now none it h, hrun]
    · simp at hc
  | some c =>
    simp only at h
    cases hk : keyOffset c with
    | none =>
      simp only [hk, Option.some.injEq] at h
      rcases hrun with hrun | ⟨c1, hc, hne⟩
      · rw [← h]; exact hrun
      · simp only [Option.some.injEq] at hc
        subst hc
        exact absurd hk hne
    | some off =>
      obtain ⟨xO, yO⟩ := off
      simp only [hk] at h
      cases hm : s.move xO yO with
      | none => simp [hm] at h
      | some r =>
        obtain ⟨s1, st⟩ := r
        simp only [hm] at h
        rw [GameState.afterKey_running _ now (some st) it h]
        by_cases hr : s1.stateRunning = false
        · simp only [if_pos hr]
        · simp only [if_neg hr]
          simpa using hr

/-- A zero-offset move on a cell inside the grid, with no obstacle and no
snake on the row, returns `Succeed` and changes nothing. -/
theorem move_zero_free (pl : Player) (plane : Plane)
    (hx0 : 0 ≤ pl.x) (hx1 : pl.x < plane.width) (hy0 : 0 ≤ pl.y) (hy1 : pl.y < plane.height)
    (hobs : ∀ o ∈ plane.obstacles, o.y ≠ pl.y) (hrow : ∀ s ∈ plane.snakes, s.y ≠ pl.y) :
    pl.move plane 0 0 = some (MovementStatus.Succeed, pl, plane) := by
  have hin : ¬ (pl.x + 0 < 0 ∨ pl.x + 0 ≥ plane.width ∨ pl.y + 0 < 0 ∨
      pl.y + 0 ≥ plane.height) := by omega
  have hfree : ¬ ∃ o ∈ plane.obstacles, o.covers (pl.x + 0) (pl.y + 0) := by
    rintro ⟨o, ho, hc⟩
    exact hobs o ho (by simpa using hc.1)
  rw [move_of_free pl plane 0 0 hin hfree,
    scanSnakes_other_rows (pl.x + 0) (pl.y + 0) plane.snakes 0
      (fun t ht => by simpa using hrow t ht)]
  simp

theorem GameState.notStarted_updateSnakes (s : GameState) (now : Int) (h : s.notStarted) :
    GameState.notStarted { s with pointUpdate := now, plane := s.plane.updateSnakes } := by
  obtain ⟨h1, h2, h3, h4, h5, h6, h7, h8, h9⟩ := h
  refine ⟨h1, h2, h3, h4, h5, h6, ?_, ?_, h9⟩
  · show (s.plane.snakes.map fun t => t.update s.plane.width).length = 8
    rw [List.length_map]
    exact h7
  · intro snake hs
    have hs2 : snake ∈ s.plane.snakes.map (fun t => t.update s.plane.width) := hs
    obtain ⟨t, ht, rfl⟩ := List.mem_map.mp hs2
    exact h8 t ht

/-- Before the game starts, the zero-offset move of the update block returns
`Succeed` and leaves the state as it is. -/
theorem GameState.notStarted_move_zero (s : GameState) (h : s.notStarted) :
    s.move 0 0 = some (s, MovementStatus.Succeed) := by
  obtain ⟨-, -, -, h4, h5, h6, -, h8, h9⟩ := h
  have hm : s.player.move s.plane 0 0 = some (MovementStatus.Succeed, s.player, s.plane) := by
    apply move_zero_free
    · rw [h4]; decide
    · rw [h4, h5]; decide
    · rw [h4]; decide
    · rw [h4, h6]; decide
    · intro o ho; rw [h4]; exact h9 o ho
    · intro t ht; rw [h4]; exact h8 t ht
  simp only [GameState.move, hm]

/-- An iteration before the game starts in which no directional key is read:
it returns, the loop goes on, the only move made returns `Succeed`, and the
state is still one before the start, with the same snakes, possibly updated. -/
theorem runIteration_quiet (s : GameState) (now : Int) (key : Option Char)
    (h : s.notStarted) (hkey : ∀ c, key = some c → keyOffset c = none) :
    ∃ it, runIteration s now key = some it ∧ it.exited = false ∧
      (it.result = none ∨ it.result = some MovementStatus.Succeed) ∧ it.state.notStarted ∧
      (it.state.plane = s.plane ∨ it.state.plane = s.plane.updateSnakes) := by
  unfold runIteration
  cases key with
  | some c =>
    simp only [hkey c rfl]
    exact ⟨_, rfl, rfl, Or.inl rfl, h, Or.inl rfl⟩
  | none =>
    have hb : ¬ (s.stateRunning = true ∧ now - s.pointBegin > DEFAULT_GAME_TIME) := by
      rw [h.1]; simp
    simp only [GameState.afterKey, if_neg hb]
    by_cases ht : now - s.pointUpdate > 150
    · have h1 := GameState.notStarted_updateSnakes s now h
      have hm := GameState.notStarted_move_zero _ h1
      have htick : s.tick now none =
          some ({ s with pointUpdate := now, plane := s.plane.updateSnakes },
            some MovementStatus.Succeed) := by
        simp only [GameState.tick, if_pos ht, hm]
      rw [htick]
      refine ⟨_, rfl, rfl, Or.inr rfl, ?_, Or.inr ?_⟩
      · show (GameState.draw _ now).notStarted
        unfold GameState.draw
        split
        · exact h1
        · exact h1
      · show (GameState.draw _ now).plane = s.plane.updateSnakes
        rw [(GameState.draw_fields _ now).2.2.2.1]
    · have htick : s.tick now none = some (s, none) := by
        simp only [GameState.tick, if_neg ht]
      rw [htick]
      refine ⟨_, rfl, rfl, Or.inl rfl, ?_, Or.inl ?_⟩
      · show (GameState.draw s now).notStarted
        unfold GameState.draw
        split
        · exact h
        · exact h
      · show (GameState.draw s now).plane = s.plane
        rw [(GameState.draw_fields s now).2.2.2.1]

/-- The state before the loop exists for every `rand()` stream and is one
before the start. -/
theorem runInit_notStarted (rnd : Nat → Nat) :
    ∃ s0, runInit rnd = some s0 ∧ s0.notStarted := by
  obtain ⟨k1, ns, no, hres, hrows, -, hobs⟩ :=
    generate_spec rnd (Plane.new DEFAULT_GAME_WIDTH DEFAULT_GAME_HEIGHT) 0 3 0 (by decide)
  have hv : rowsVisited DEFAULT_GAME_HEIGHT 3 0 = [3, 5, 7, 9, 11, 13, 15, 17] := by decide
  have hys : ns.map (fun t => t.y) = [4, 6, 8, 10, 12, 14, 16, 18] := by
    rw [hrows]
    simp only [Plane.new, hv]
    decide
  have hinit : runInit rnd = some (GameState.mk false false 0 0 0 0
      (Plane.mk 31 20 ([] ++ ns) ([] ++ no)) (Player.mk 15 1)) := by
    have hdiv : Int.tdiv 31 2 = 15 := by decide
    unfold runInit
    rw [hres]
    simp only [Plane.new, DEFAULT_GAME_WIDTH, DEFAULT_GAME_HEIGHT, hdiv]
  refine ⟨_, hinit, ?_⟩
  unfold GameState.notStarted
  refine ⟨rfl, rfl, rfl, rfl, rfl, rfl, ?_, ?_, ?_⟩
  · show ([] ++ ns).length = 8
    have := congrArg List.length hys
    simpa using this
  · intro snake hs
    have hs2 : snake ∈ ns := by simpa [Plane.new] using hs
    have hy : snake.y ∈ ns.map (fun t => t.y) := List.mem_map_of_mem _ hs2
    rw [hys] at hy
    simp only [List.mem_cons, List.mem_singleton, List.not_mem_nil, or_false] at hy
    omega
  · intro o ho
    have ho2 : o ∈ no := by simpa [Plane.new] using ho
    have hy := (hobs o ho2).2.2.2
    simp only [Plane.new, hv] at hy
    simp only [List.mem_cons, List.mem_singleton, List.not_mem_nil, or_false] at hy
    omega

/-- Every state at the start of an iteration is running or before the start. -/
theorem runAfter_notStarted :
    ∀ (inputs : List (Int × Option Char)) (s0 s : GameState),
      (s0.stateRunning = false → s0.notStarted) → runAfter s0 inputs = some s →
      (s.stateRunning = false → s.notStarted) := by
  intro inputs
  induction inputs with
  | nil =>
    intro s0 s h0 hs
    unfold runAfter at hs
    by_cases hl : s0.stateLoose = true
    · simp [hl] at hs
    · simp only [if_neg hl, Option.some.injEq] at hs
      rw [← hs]
      exact h0
  | cons a rest ih =>
    intro s0 s h0 hs
    obtain ⟨now, key⟩ := a
    unfold runAfter at hs
    by_cases hl : s0.stateLoose = true
    · simp [hl] at hs
    · simp only [if_neg hl] at hs
      cases hit : runIteration s0 now key with
      | none => simp [hit] at hs
      | some it =>
        simp only [hit] at hs
        by_cases he : it.exited = true
        · simp [he] at hs
        · simp only [if_neg he] at hs
          refine ih it.state s ?_ hs
          intro hrun
          by_cases hr0 : s0.stateRunning = true
          · have := runIteration_running s0 now key it hit (Or.inl hr0)
            rw [this] at hrun
            exact absurd hrun (by decide)
          · have hns := h0 (by simpa using hr0)
            by_cases hkey : ∀ c, key = some c → keyOffset c = none
            · obtain ⟨it1, hit1, -, -, hn1, -⟩ := runIteration_quiet s0 now key hns hkey
              rw [hit] at hit1
              simp only [Option.some.injEq] at hit1
              rw [hit1]
              exact hn1
            · have hex : ∃ c, key = some c ∧ keyOffset c ≠ none := by
                by_contra hcon
                apply hkey
                intro c hc
                by_contra hne
                exact hcon ⟨c, hc, hne⟩
              have := runIteration_running s0 now key it hit (Or.inr hex)
              rw [this] at hrun
              exact absurd hrun (by decide)

theorem keyOffset_other (c : Char) (hw : c ≠ 'w') (hs : c ≠ 's') (ha : c ≠ 'a') (hd : c ≠ 'd') :
    keyOffset c = none := by
  simp only [keyOffset, if_neg hw, if_neg hs, if_neg ha, if_neg hd]

theorem GameState.tick_fields (s s1 : GameState) (now : Int)
    (result r1 : Option MovementStatus) (h : s.tick now result = some (s1, r1)) :
    s1.stateSnakes = s.stateSnakes ∧ s1.stateLoose = s.stateLoose := by
  unfold GameState.tick at h
  by_cases ht : now - s.pointUpdate > 150
  · simp only [if_pos ht] at h
    cases result with
    | some st =>
      simp only [Option.some.injEq, Prod.mk.injEq] at h
      rw [← h.1]
      exact ⟨rfl, rfl⟩
    | none =>
      simp only at h
      cases hm : GameState.move
          { s with pointUpdate := now, plane := s.plane.updateSnakes } 0 0 with
      | none => simp [hm] at h
      | some r =>
        obtain ⟨s2, st⟩ := r
        simp only [hm, Option.some.injEq, Prod.mk.injEq] at h
        rw [← h.1]
        have hf := GameState.move_fields _ s2 0 0 st hm
        exact ⟨hf.2.2.2.1, hf.2.2.1⟩
  · simp only [if_neg ht, Option.some.injEq, Prod.mk.injEq] at h
    rw [← h.1]
    exact ⟨rfl, rfl⟩

theorem GameState.afterKey_handled (s : GameState) (now : Int)
    (result : Option MovementStatus) (it : Iteration) (h : s.afterKey now result = some it)
    (he : it.exited = false) :
    (it.result = some MovementStatus.HitSnake → it.state.stateSnakes = s.stateSnakes + 1) ∧
    (it.result = some MovementStatus.HitSnakeHead → it.state.stateLoose = true) := by
  unfold GameState.afterKey at h
  by_cases hb : s.stateRunning = true ∧ now - s.pointBegin > DEFAULT_GAME_TIME
  · simp only [if_pos hb, Option.some.injEq] at h
    rw [← h] at he
    simp at he
  · simp only [if_neg hb] at h
    cases ht : s.tick now result with
    | none => simp [ht] at h
    | some r =>
      obtain ⟨s1, r1⟩ := r
      simp only [ht, Option.some.injEq] at h
      obtain ⟨hf1, -⟩ := GameState.tick_fields s s1 now result r1 ht
      have hd := (GameState.draw_fields s1 now).2.2.1
      rw [← h]
      constructor
      · intro hr
        have hr1 : r1 = some MovementStatus.HitSnake := hr
        show ((s1.draw now).handle r1).stateSnakes = s.stateSnakes + 1
        rw [hr1, ← hf1, ← hd]
        rfl
      · intro hr
        have hr1 : r1 = some MovementStatus.HitSnakeHead := hr
        show ((s1.draw now).handle r1).stateLoose = true
        rw [hr1]
        rfl

/-- On every iteration that does not leave the loop by the time-out `break`,
the result of the move is handled: `HitSnake` adds one to the counter and
`HitSnakeHead` sets the loss flag, so the loop ends with the loss message. -/
theorem runIteration_handled (s : GameState) (now : Int) (key : Option Char) (it : Iteration)
    (h : runIteration s now key = some it) (he : it.exited = false) :
    (it.result = some MovementStatus.HitSnake → it.state.stateSnakes = s.stateSnakes + 1) ∧
    (it.result = some MovementStatus.HitSnakeHead →
      it.state.stateLoose = true ∧ runEnd it.state = Outcome.hitBySnake) := by
  have hend : it.state.stateLoose = true → runEnd it.state = Outcome.hitBySnake := by
    intro hl
    simp only [runEnd, if_pos hl]
  unfold runIteration at h
  cases key with
  | none =>
    simp only at h
    have := GameState.afterKey_handled s now none it h he
    exact ⟨this.1, fun hr => ⟨this.2 hr, hend (this.2 hr)⟩⟩
  | some c =>
    simp only at h
    cases hk : keyOffset c with
    | none =>
      simp only [hk, Option.some.injEq] at h
      rw [← h]
      exact ⟨fun hr => by simp at hr, fun hr => by simp at hr⟩
    | some off =>
      obtain ⟨xO, yO⟩ := off
      simp only [hk] at h
      cases hm : s.move xO yO with
      | none => simp [hm] at h
      | some r =>
        obtain ⟨s1, st⟩ := r
        simp only [hm] at h
        have hf := GameState.move_fields s s1 xO yO st hm
        have := GameState.afterKey_handled _ now (some st) it h he
        have hsn : (if s1.stateRunning = false then
            { s1 with stateRunning := true, pointBegin := now } else s1).stateSnakes =
              s.stateSnakes := by
          split
          · exact hf.2.2.2.1
          · exact hf.2.2.2.1
        rw [hsn] at this
        exact ⟨this.1, fun hr => ⟨this.2 hr, hend (this.2 hr)⟩⟩

/-! ## Claims on the game loop -/

/-- C14 fails on the code when the time is up in the iteration of the move.
With the game running since time 0, at `now = 15001` the key `'s'` moves the
player from `(9, 3)` onto the body of `Snake(8, 4, 3, 1)`: `move` returns
`HitSnake`, the snake is erased, the loop is left by `break`, and the counter
is still 0. From `(10, 3)` the same key hits the head: `move` returns
`HitSnakeHead`, the loop is left with `stateLoose` false and the final message
is the count of snakes. At `now = 15000` both results are handled. -/
theorem C14_timeout_skips_result_handling :
    runIteration (GameState.mk true false 0 15000 15000 0
        (Plane.mk 31 20 [Snake.new 8 4 3 1] []) (Player.mk 9 3)) 15001 (some 's') =
      some (Iteration.mk (GameState.mk true false 0 15000 15000 0
        (Plane.mk 31 20 [] []) (Player.mk 9 4)) (some MovementStatus.HitSnake) true) ∧
    runEnd (GameState.mk true false 0 15000 15000 0
        (Plane.mk 31 20 [] []) (Player.mk 9 4)) = Outcome.caught 0 ∧
    runIteration (GameState.mk true false 0 15000 15000 0
        (Plane.mk 31 20 [Snake.new 8 4 3 1] []) (Player.mk 10 3)) 15001 (some 's') =
      some (Iteration.mk (GameState.mk true false 0 15000 15000 0
        (Plane.mk 31 20 [Snake.new 8 4 3 1] []) (Player.mk 10 3))
        (some MovementStatus.HitSnakeHead) true) ∧
    runEnd (GameState.mk true false 0 15000 15000 0
        (Plane.mk 31 20 [Snake.new 8 4 3 1] []) (Player.mk 10 3)) = Outcome.caught 0 ∧
    runIteration (GameState.mk true false 0 15000 15000 0
        (Plane.mk 31 20 [Snake.new 8 4 3 1] []) (Player.mk 9 3)) 15000 (some 's') =
      some (Iteration.mk (GameState.mk true false 1 15000 15000 0
        (Plane.mk 31 20 [] []) (Player.mk 9 4)) (some MovementStatus.HitSnake) false) ∧
    runIteration (GameState.mk true false 0 15000 15000 0
        (Plane.mk 31 20 [Snake.new 8 4 3 1] []) (Player.mk 10 3)) 15000 (some 's') =
      some (Iteration.mk (GameState.mk true true 0 15000 15000 0
        (Plane.mk 31 20 [Snake.new 8 4 3 1] []) (Player.mk 10 3))
        (some MovementStatus.HitSnakeHead) false) := by
  decide

/-- C20: for every `rand()` stream, from the state of `run()` before the loop,
after any clock readings and keys, an iteration that begins with
`stateRunning = false` and reads no key or a key other than `'w'`, `'a'`,
`'s'`, `'d'` begins with the player at `(15, 1)`, nothing lost or caught and
no snake or obstacle on row 1; it returns without leaving the loop, its only
possible move returns `Succeed`, and afterwards the player is at `(15, 1)`,
`stateLoose` is false, `stateSnakes` is 0 and the snakes are the same ones,
at most updated. -/
theorem C20_nothing_before_start (rnd : Nat → Nat) (s0 : GameState)
    (h0 : runInit rnd = some s0) (inputs : List (Int × Option Char)) (s : GameState)
    (hs : runAfter s0 inputs = some s) (hrun : s.stateRunning = false)
    (now : Int) (key : Option Char)
    (hkey : key ≠ some 'w' ∧ key ≠ some 'a' ∧ key ≠ some 's' ∧ key ≠ some 'd') :
    (s.player = { x := 15, y := 1 } ∧ s.stateLoose = false ∧ s.stateSnakes = 0 ∧
      (∀ snake ∈ s.plane.snakes, snake.y ≠ 1) ∧ (∀ o ∈ s.plane.obstacles, o.y ≠ 1)) ∧
    ∃ it, runIteration s now key = some it ∧ it.exited = false ∧
      (it.result = none ∨ it.result = some MovementStatus.Succeed) ∧
      it.state.player = { x := 15, y := 1 } ∧ it.state.stateLoose = false ∧
      it.state.stateSnakes = 0 ∧ it.state.stateRunning = false ∧
      it.state.plane.snakes.length = s.plane.snakes.length ∧
      (it.state.plane = s.plane ∨ it.state.plane = s.plane.updateSnakes) := by
  obtain ⟨s1, hs1, hn1⟩ := runInit_notStarted rnd
  rw [h0] at hs1
  simp only [Option.some.injEq] at hs1
  subst hs1
  have hn := runAfter_notStarted inputs s0 s (fun _ => hn1) hs hrun
  have hk : ∀ c, key = some c → keyOffset c = none := by
    intro c hc
    subst hc
    exact keyOffset_other c (fun h => hkey.1 (by rw [h])) (fun h => hkey.2.2.1 (by rw [h]))
      (fun h => hkey.2.1 (by rw [h])) (fun h => hkey.2.2.2 (by rw [h]))
  obtain ⟨it, hit, hex, hres, hnit, hplane⟩ := runIteration_quiet s now key hn hk
  refine ⟨⟨hn.2.2.2.1, hn.2.1, hn.2.2.1, hn.2.2.2.2.2.2.2.1, hn.2.2.2.2.2.2.2.2⟩,
    it, hit, hex, hres, hnit.2.2.2.1, hnit.2.1, hnit.2.2.1, hnit.1, ?_, hplane⟩
  rw [hnit.2.2.2.2.2.2.1, hn.2.2.2.2.2.2.1]

/-- C20 with `rand()` returning 0 at every call: after an iteration at 200 ms
without a key and one at 250 ms with the key `'x'`, the iteration at 500 ms
without a key leaves the player at `(15, 1)`. -/
theorem C20_nothing_before_start_witness :
    ∃ s0 s, runInit (fun _ => 0) = some s0 ∧
      runAfter s0 [(200, none), (250, some 'x')] = some s ∧ s.stateRunning = false ∧
      ∃ it, runIteration s 500 none = some it ∧ it.exited = false ∧
        (it.result = none ∨ it.result = some MovementStatus.Succeed) ∧
        it.state.player = { x := 15, y := 1 } ∧ it.state.stateLoose = false ∧
        it.state.stateSnakes = 0 ∧ it.state.stateRunning = false ∧
        it.state.plane.snakes.length = s.plane.snakes.length ∧
        (it.state.plane = s.plane ∨ it.state.plane = s.plane.updateSnakes) :=
  ⟨(runInit (fun _ => 0)).get (by decide),
    (runAfter ((runInit (fun _ => 0)).get (by decide)) [(200, none), (250, some 'x')]).get
      (by decide),
    (Option.some_get _).symm, (Option.some_get _).symm, by decide,
    (C20_nothing_before_start (fun _ => 0) _ (Option.some_get _).symm
      [(200, none), (250, some 'x')] _ (Option.some_get _).symm (by decide) 500 none
      (by decide)).2⟩

end GameObjects
